import Mathlib

/-!
Shallow embedding of `src/bluetooth-game/lib/game-engine.ts` (class `GameEngine`).

Conventions of the embedding:
* JS `number` is modelled by `ℚ` (the engine only adds, subtracts, multiplies,
  compares, and clamps; `Math.sqrt` occurs only inside `getDistance(a,b) < r`
  comparisons, which are encoded square-free, see `distLt`).
* `Math.cos` / `Math.sin` / `Math.atan2` are opaque real functions; they are
  modelled by an abstract parameter `Trig` supplying arbitrary rational-valued
  functions.
* `Math.random()` is modelled by an oracle stream `rand : ℕ → ℚ` stored in the
  state together with a cursor `ridx`; every source call of `Math.random()`
  consumes one element, in source order.
* The `players : Map<string, Player>` is modelled as a `List Player` in
  insertion order; `Map.get` is `findPlayer`, and mutation of a player object
  held in the map is `setPlayer` (updating the stored entry in place).
* `Array.prototype.forEach` with `splice` inside the callback is modelled
  exactly: the iteration bound is the length at loop entry, each step reads
  the element currently at that index (skipping indices at or past the current
  length), and `splice(i, 1)` is `List.eraseIdx i`.
* Rendering, audio, the Bluetooth transport and the network callback perform
  no simulation-state mutation and are omitted; `sendNetworkUpdate` only
  invokes the callback, so `update` ends after `checkCollisions`.
-/

namespace BluetoothGame

/-- `Vector2D` (game-engine.ts). -/
structure Vec2 where
  x : ℚ
  y : ℚ
deriving DecidableEq, Repr

/-- `Player` (game-engine.ts): `GameObject` base fields plus player fields. -/
structure Player where
  id : String
  playerId : String
  position : Vec2
  velocity : Vec2
  rotation : ℚ
  health : ℚ
  maxHealth : ℚ
  shield : ℚ
  maxShield : ℚ
  energy : ℚ
  maxEnergy : ℚ
  score : ℚ
  kills : ℕ
  deaths : ℕ
  weaponCooldown : ℚ
  boostCooldown : ℚ
  active : Bool
deriving DecidableEq, Repr

/-- `Projectile` (game-engine.ts). -/
structure Projectile where
  id : String
  position : Vec2
  velocity : Vec2
  rotation : ℚ
  health : ℚ
  maxHealth : ℚ
  ownerId : String
  damage : ℚ
  lifetime : ℚ
  active : Bool
deriving DecidableEq, Repr

/-- The four power-up kinds of `PowerUp["type"]`. -/
inductive PowerUpType where
  | health
  | shield
  | energy
  | weapon
deriving DecidableEq, Repr

/-- `PowerUp` (game-engine.ts). -/
structure PowerUp where
  id : String
  position : Vec2
  velocity : Vec2
  rotation : ℚ
  health : ℚ
  maxHealth : ℚ
  kind : PowerUpType
  value : ℚ
  respawnTime : ℚ
  active : Bool
deriving DecidableEq, Repr

/-- `Asteroid` (game-engine.ts). -/
structure Asteroid where
  id : String
  position : Vec2
  velocity : Vec2
  rotation : ℚ
  health : ℚ
  maxHealth : ℚ
  size : ℚ
  rotationSpeed : ℚ
  active : Bool
deriving DecidableEq, Repr

/-- `Particle` (game-engine.ts). -/
structure Particle where
  position : Vec2
  velocity : Vec2
  color : String
  life : ℚ
  maxLife : ℚ
  size : ℚ
deriving DecidableEq, Repr

/-- One tick's worth of raw input: `deltaTime`, the `keys` set restricted to
the codes the engine reads (`KeyW`, `KeyS`, `KeyA`, `KeyD`, `Space`), and the
`mouse` state. -/
structure Env where
  dt : ℚ
  keyW : Bool
  keyS : Bool
  keyA : Bool
  keyD : Bool
  space : Bool
  mouseX : ℚ
  mouseY : ℚ
  mousePressed : Bool
deriving DecidableEq, Repr

/-- Abstract trigonometry: `Math.cos`, `Math.sin`, `Math.atan2` as opaque
rational-valued functions (the engine never relies on trig identities). -/
structure Trig where
  cos : ℚ → ℚ
  sin : ℚ → ℚ
  atan2 : ℚ → ℚ → ℚ

/-- The mutable fields of `GameEngine` that participate in simulation, plus
the `Math.random()` oracle (`rand` stream and cursor `ridx`) and the canvas
dimensions used for boundary logic. -/
structure GameState where
  players : List Player
  projectiles : List Projectile
  powerUps : List PowerUp
  asteroids : List Asteroid
  particles : List Particle
  gameTime : ℚ
  isHost : Bool
  localPlayerId : String
  canvasW : ℚ
  canvasH : ℚ
  rand : ℕ → ℚ
  ridx : ℕ

/-- Draw the next `Math.random()` value from the oracle stream. -/
def takeRand (st : GameState) : ℚ × GameState :=
  (st.rand st.ridx, { st with ridx := st.ridx + 1 })

/-- Plain decimal-free rendering of a rational, used only to build the id /
color strings the source assembles by template interpolation. -/
def ratStr (q : ℚ) : String :=
  toString q.num ++ "/" ++ toString q.den

/-- An `hsl(h, s%, l%)` color string. -/
def hslStr (h s l : ℚ) : String :=
  "hsl(" ++ ratStr h ++ ", " ++ ratStr s ++ "%, " ++ ratStr l ++ "%)"

/-- `getDistance(p1, p2) < r` from the source, encoded square-free:
`sqrt(dx*dx + dy*dy) < r` holds iff `r > 0` and `dx*dx + dy*dy < r*r`
(for `r ≤ 0` the comparison is false since the square root is nonnegative). -/
def distLt (p1 p2 : Vec2) (r : ℚ) : Bool :=
  decide (0 < r) &&
    decide ((p1.x - p2.x) * (p1.x - p2.x) + (p1.y - p2.y) * (p1.y - p2.y) < r * r)

/-- `this.players.get(pid)`: the map is a list in insertion order with the
player's `id` as key (`createPlayer` always sets key = `id` = `playerId`),
so a lookup returns the first entry whose `id` matches. -/
def findPlayer : List Player → String → Option Player
  | [], _ => none
  | p :: ps, pid => if p.id = pid then some p else findPlayer ps pid

/-- In-place mutation of the player object stored under key `pid`. -/
def setPlayer (ps : List Player) (pid : String) (f : Player → Player) : List Player :=
  ps.map (fun p => if p.id = pid then f p else p)

/-- Mutation of the local player object (`handlePlayerInput` and
`handleShooting` operate on `this.players.get(this.localPlayerId)`). -/
def modifyLocal (st : GameState) (f : Player → Player) : GameState :=
  { st with players := setPlayer st.players st.localPlayerId f }

/-- Run a continuation with the current value of the local player object;
no-op when the local player is absent from the store. -/
def withLocal (st : GameState) (k : GameState → Player → GameState) : GameState :=
  match findPlayer st.players st.localPlayerId with
  | some p => k st p
  | none => st

/-- Append one particle to `this.particles`. -/
def pushParticle (st : GameState) (pt : Particle) : GameState :=
  { st with particles := st.particles ++ [pt] }

/-- `addEngineParticles(player)`: 3 particles; per particle the source draws
randoms for velocity.x, velocity.y, the two color components, and size. -/
def addEngineParticles (tr : Trig) (st0 : GameState) (player : Player) : GameState :=
  (List.range 3).foldl (fun st _ =>
    let (r1, st) := takeRand st
    let (r2, st) := takeRand st
    let (r3, st) := takeRand st
    let (r4, st) := takeRand st
    let (r5, st) := takeRand st
    pushParticle st
      { position := ⟨player.position.x - tr.cos player.rotation * 15,
                     player.position.y - tr.sin player.rotation * 15⟩
        velocity := ⟨-(tr.cos player.rotation) * 100 + (r1 - 1/2) * 50,
                     -(tr.sin player.rotation) * 100 + (r2 - 1/2) * 50⟩
        color := hslStr (30 + r3 * 30) 100 (50 + r4 * 30)
        life := 1/2
        maxLife := 1/2
        size := 2 + r5 * 3 }) st0

/-- `addBoostParticles(player)`: 8 particles. -/
def addBoostParticles (st0 : GameState) (pos : Vec2) : GameState :=
  (List.range 8).foldl (fun st _ =>
    let (r1, st) := takeRand st
    let (r2, st) := takeRand st
    let (r3, st) := takeRand st
    let (r4, st) := takeRand st
    let (r5, st) := takeRand st
    pushParticle st
      { position := pos
        velocity := ⟨(r1 - 1/2) * 200, (r2 - 1/2) * 200⟩
        color := hslStr (200 + r3 * 60) 100 (60 + r4 * 20)
        life := 4/5
        maxLife := 4/5
        size := 3 + r5 * 4 }) st0

/-- `addMuzzleFlashParticles(player)`: 5 particles. -/
def addMuzzleFlashParticles (tr : Trig) (st0 : GameState) (player : Player) : GameState :=
  (List.range 5).foldl (fun st _ =>
    let (r1, st) := takeRand st
    let (r2, st) := takeRand st
    let (r3, st) := takeRand st
    let (r4, st) := takeRand st
    let (r5, st) := takeRand st
    pushParticle st
      { position := ⟨player.position.x + tr.cos player.rotation * 20,
                     player.position.y + tr.sin player.rotation * 20⟩
        velocity := ⟨tr.cos player.rotation * 50 + (r1 - 1/2) * 30,
                     tr.sin player.rotation * 50 + (r2 - 1/2) * 30⟩
        color := hslStr (45 + r3 * 15) 100 (80 + r4 * 20)
        life := 1/5
        maxLife := 1/5
        size := 2 + r5 * 2 }) st0

/-- `addHitParticles(position)`: 6 particles, 4 random draws each. -/
def addHitParticles (st0 : GameState) (pos : Vec2) : GameState :=
  (List.range 6).foldl (fun st _ =>
    let (r1, st) := takeRand st
    let (r2, st) := takeRand st
    let (r3, st) := takeRand st
    let (r4, st) := takeRand st
    pushParticle st
      { position := pos
        velocity := ⟨(r1 - 1/2) * 150, (r2 - 1/2) * 150⟩
        color := hslStr 0 100 (60 + r3 * 30)
        life := 3/5
        maxLife := 3/5
        size := 2 + r4 * 3 }) st0

/-- `addExplosionParticles(position, baseColor)`: 12 particles; the color
template draws two randoms in either branch. -/
def addExplosionParticles (st0 : GameState) (pos : Vec2) (baseColor : String) : GameState :=
  (List.range 12).foldl (fun st _ =>
    let (r1, st) := takeRand st
    let (r2, st) := takeRand st
    let (r3, st) := takeRand st
    let (r4, st) := takeRand st
    let (r5, st) := takeRand st
    pushParticle st
      { position := pos
        velocity := ⟨(r1 - 1/2) * 300, (r2 - 1/2) * 300⟩
        color := if baseColor == "red" then hslStr (r3 * 30) 100 (60 + r4 * 30)
                 else hslStr (30 + r3 * 30) 100 (60 + r4 * 30)
        life := 1
        maxLife := 1
        size := 3 + r5 * 5 }) st0

/-- `addCollectionParticles(position, color)`: 8 particles, 3 draws each. -/
def addCollectionParticles (st0 : GameState) (pos : Vec2) (color : String) : GameState :=
  (List.range 8).foldl (fun st _ =>
    let (r1, st) := takeRand st
    let (r2, st) := takeRand st
    let (r3, st) := takeRand st
    pushParticle st
      { position := pos
        velocity := ⟨(r1 - 1/2) * 100, (r2 - 1/2) * 100⟩
        color := color
        life := 4/5
        maxLife := 4/5
        size := 2 + r3 * 3 }) st0

/-- `getPowerUpColor(type)`. -/
def getPowerUpColor : PowerUpType → String
  | .health => "#ff4444"
  | .shield => "#4444ff"
  | .energy => "#ffff44"
  | .weapon => "#ff44ff"

/-- `handleShooting()`: no-op unless the local player exists with
`weaponCooldown ≤ 0` and `energy ≥ 10`; otherwise pushes one projectile
(damage 25, lifetime 3, speed 400 along the heading), sets
`weaponCooldown = 0.2`, deducts 10 energy, and spawns muzzle-flash particles.
The id template `projectile_${Date.now()}_${Math.random()}` consumes one
random draw; the wall-clock part is not simulation state and is omitted from
the rendered string. -/
def handleShooting (tr : Trig) (st : GameState) : GameState :=
  match findPlayer st.players st.localPlayerId with
  | none => st
  | some player =>
    if player.weaponCooldown > 0 ∨ player.energy < 10 then st
    else
      let (r, st) := takeRand st
      let proj : Projectile :=
        { id := "projectile_" ++ ratStr r
          position := player.position
          velocity := ⟨tr.cos player.rotation * 400, tr.sin player.rotation * 400⟩
          rotation := player.rotation
          health := 1
          maxHealth := 1
          ownerId := player.playerId
          damage := 25
          lifetime := 3
          active := true }
      let st := { st with projectiles := st.projectiles ++ [proj] }
      let st := modifyLocal st (fun p =>
        { p with weaponCooldown := 1/5, energy := p.energy - 10 })
      addMuzzleFlashParticles tr st player

/-- `handlePlayerInput(player, deltaTime)`, called by `updatePlayers` with the
local player object; the shared mutable object is modelled by updating the
store entry and re-reading it between steps. Source order: W-thrust (with
engine particles), S-thrust, A/D rotation, boost, shooting, then the
unconditional face-the-mouse rotation override. -/
def handlePlayerInput (tr : Trig) (env : Env) (st0 : GameState) : GameState :=
  let st1 :=
    if env.keyW then
      let st := modifyLocal st0 (fun p =>
        { p with velocity := ⟨p.velocity.x + tr.cos p.rotation * 5 * env.dt,
                              p.velocity.y + tr.sin p.rotation * 5 * env.dt⟩ })
      withLocal st (fun st p => addEngineParticles tr st p)
    else st0
  let st2 :=
    if env.keyS then
      modifyLocal st1 (fun p =>
        { p with velocity := ⟨p.velocity.x - tr.cos p.rotation * 3 * env.dt,
                              p.velocity.y - tr.sin p.rotation * 3 * env.dt⟩ })
    else st1
  let st3 :=
    if env.keyA then modifyLocal st2 (fun p => { p with rotation := p.rotation - 3 * env.dt })
    else st2
  let st4 :=
    if env.keyD then modifyLocal st3 (fun p => { p with rotation := p.rotation + 3 * env.dt })
    else st3
  let st5 :=
    withLocal st4 (fun st p =>
      if env.space ∧ p.energy > 20 ∧ p.boostCooldown ≤ 0 then
        let st := modifyLocal st (fun q =>
          { q with velocity := ⟨q.velocity.x + tr.cos q.rotation * 10 * env.dt,
                                q.velocity.y + tr.sin q.rotation * 10 * env.dt⟩,
                   energy := q.energy - 20,
                   boostCooldown := 1 })
        addBoostParticles st p.position
      else st)
  let st6 := if env.mousePressed then handleShooting tr st5 else st5
  withLocal st6 (fun st p =>
    modifyLocal st (fun q =>
      { q with rotation := tr.atan2 (env.mouseY - p.position.y) (env.mouseX - p.position.x) }))

/-- The body of the `players.forEach` in `updatePlayers`: integrate position
at the 60x time-scale, apply 0.98 drag, hard-wrap at the canvas edges,
regenerate shield (+10/s) and energy (+20/s) clamped at max, and decrement
whichever cooldowns are positive (no lower clamp in the source). -/
def updatePlayerTick (env : Env) (w h : ℚ) (p : Player) : Player :=
  let px := p.position.x + p.velocity.x * env.dt * 60
  let py := p.position.y + p.velocity.y * env.dt * 60
  let vel : Vec2 := ⟨p.velocity.x * (98/100), p.velocity.y * (98/100)⟩
  let px := if px < 0 then w else px
  let px := if px > w then 0 else px
  let py := if py < 0 then h else py
  let py := if py > h then 0 else py
  let shield := if p.shield < p.maxShield then min p.maxShield (p.shield + 10 * env.dt)
                else p.shield
  let energy := if p.energy < p.maxEnergy then min p.maxEnergy (p.energy + 20 * env.dt)
                else p.energy
  let wc := if p.weaponCooldown > 0 then p.weaponCooldown - env.dt else p.weaponCooldown
  let bc := if p.boostCooldown > 0 then p.boostCooldown - env.dt else p.boostCooldown
  { p with position := ⟨px, py⟩, velocity := vel, shield := shield, energy := energy,
           weaponCooldown := wc, boostCooldown := bc }

/-- `updatePlayers(deltaTime)`: early-return when the local player is absent;
otherwise handle input for the local player, then run the per-player tick
body over every stored player. -/
def updatePlayers (tr : Trig) (env : Env) (st : GameState) : GameState :=
  match findPlayer st.players st.localPlayerId with
  | none => st
  | some _ =>
    let st := handlePlayerInput tr env st
    { st with players := st.players.map (updatePlayerTick env st.canvasW st.canvasH) }

/-- `updateProjectiles(deltaTime)`: integrate at `deltaTime` directly (no 60x
scale), decrement lifetime, and filter out expired or out-of-bounds
projectiles. -/
def updateProjectiles (env : Env) (st : GameState) : GameState :=
  { st with projectiles :=
      (st.projectiles.map (fun pr =>
        { pr with position := ⟨pr.position.x + pr.velocity.x * env.dt,
                               pr.position.y + pr.velocity.y * env.dt⟩,
                  lifetime := pr.lifetime - env.dt })).filter (fun pr =>
        ¬(pr.lifetime ≤ 0 ∨ pr.position.x < 0 ∨ pr.position.x > st.canvasW ∨
          pr.position.y < 0 ∨ pr.position.y > st.canvasH)) }

/-- The body of the `powerUps.forEach` in `updatePowerUps`: count down the
respawn timer of an inactive power-up, reactivating it at a fresh random
position at zero; always advance the floating-animation rotation. -/
def powerUpTick (env : Env) (st : GameState) (pu : PowerUp) : PowerUp × GameState :=
  let (pu, st) :=
    if ¬pu.active ∧ pu.respawnTime > 0 then
      let rt := pu.respawnTime - env.dt
      if rt ≤ 0 then
        let (rx, st) := takeRand st
        let (ry, st) := takeRand st
        ({ pu with respawnTime := rt, active := true,
                   position := ⟨rx * st.canvasW, ry * st.canvasH⟩ }, st)
      else ({ pu with respawnTime := rt }, st)
    else (pu, st)
  ({ pu with rotation := pu.rotation + env.dt * 2 }, st)

/-- `updatePowerUps(deltaTime)`. -/
def updatePowerUps (env : Env) (st : GameState) : GameState :=
  let acc := st.powerUps.foldl (fun (s : List PowerUp × GameState) pu =>
    let (pu', st') := powerUpTick env s.2 pu
    (s.1 ++ [pu'], st')) ([], st)
  { acc.2 with powerUps := acc.1 }

/-- The body of the `asteroids.forEach` in `updateAsteroids`: integrate at the
60x time-scale, spin, and wrap with a margin equal to the asteroid's size.
Note: no drag is applied to asteroid velocity. -/
def asteroidTick (env : Env) (w h : ℚ) (a : Asteroid) : Asteroid :=
  let px := a.position.x + a.velocity.x * env.dt * 60
  let py := a.position.y + a.velocity.y * env.dt * 60
  let rot := a.rotation + a.rotationSpeed
  let px := if px < -a.size then w + a.size else px
  let px := if px > w + a.size then -a.size else px
  let py := if py < -a.size then h + a.size else py
  let py := if py > h + a.size then -a.size else py
  { a with position := ⟨px, py⟩, rotation := rot }

/-- `updateAsteroids(deltaTime)`. -/
def updateAsteroids (env : Env) (st : GameState) : GameState :=
  { st with asteroids := st.asteroids.map (asteroidTick env st.canvasW st.canvasH) }

/-- `updateParticles(deltaTime)`: integrate, decay life, apply 0.98 drag, and
purge particles whose life is no longer positive. -/
def updateParticles (env : Env) (st : GameState) : GameState :=
  let moved := st.particles.map (fun pt =>
    { pt with position := ⟨pt.position.x + pt.velocity.x * env.dt,
                           pt.position.y + pt.velocity.y * env.dt⟩,
              life := pt.life - env.dt,
              velocity := ⟨pt.velocity.x * (98/100), pt.velocity.y * (98/100)⟩ })
  { st with particles := moved.filter (fun pt => pt.life > 0) }

/-- Shield-then-health damage application: lines 584-596 of `handlePlayerHit`
(everything before the particle burst and the destruction check). -/
def hitResult (p : Player) (damage0 : ℚ) : Player :=
  let sp :=
    if p.shield > 0 then
      let shieldDamage := min p.shield damage0
      ({ p with shield := p.shield - shieldDamage }, damage0 - shieldDamage)
    else (p, damage0)
  if sp.2 > 0 then { sp.1 with health := sp.1.health - sp.2 } else sp.1

/-- The soft-respawn updates of `handlePlayerDestroyed` on the victim object:
one death, full restore of health/shield/energy. -/
def respawnReset (p : Player) : Player :=
  { p with deaths := p.deaths + 1, health := p.maxHealth, shield := p.maxShield,
           energy := p.maxEnergy }

/-- `handlePlayerDestroyed(player, killerId)`: soft-respawn the victim at a
fresh random position, award the killer (if present in the store) one kill
and 100 score, and spawn a red explosion at the victim's new position (the
source reads `player.position` after the relocation). -/
def handlePlayerDestroyed (st : GameState) (pid killerId : String) : GameState :=
  let st := { st with players := setPlayer st.players pid respawnReset }
  let (rx, st) := takeRand st
  let (ry, st) := takeRand st
  let newPos : Vec2 := ⟨rx * st.canvasW, ry * st.canvasH⟩
  let st := { st with players := setPlayer st.players pid (fun p => { p with position := newPos }) }
  let st := { st with players := setPlayer st.players killerId (fun k =>
    { k with kills := k.kills + 1, score := k.score + 100 }) }
  addExplosionParticles st newPos "red"

/-- `handlePlayerHit(player, projectile)`: shield-then-health damage, hit
particles, then the destruction check. The player argument is the store
entry under `pid` (reference semantics). -/
def handlePlayerHit (st : GameState) (pid : String) (proj : Projectile) : GameState :=
  match findPlayer st.players pid with
  | none => st
  | some player =>
    let player' := hitResult player proj.damage
    let st := { st with players := setPlayer st.players pid (fun _ => player') }
    let st := addHitParticles st player.position
    if player'.health ≤ 0 then handlePlayerDestroyed st pid proj.ownerId else st

/-- `handlePowerUpCollection(player, powerUp)`, for the store entry under
`pid` and the power-up at index `k`: apply the typed effect (health, shield,
energy clamped at max; weapon adds value to score), deactivate the power-up,
schedule its respawn in `10 + Math.random() * 10` seconds, and spawn
collection particles. -/
def handlePowerUpCollection (st : GameState) (pid : String) (k : ℕ) : GameState :=
  match st.powerUps[k]?, findPlayer st.players pid with
  | some pu, some player =>
    let player' :=
      match pu.kind with
      | .health => { player with health := min player.maxHealth (player.health + pu.value) }
      | .shield => { player with shield := min player.maxShield (player.shield + pu.value) }
      | .energy => { player with energy := min player.maxEnergy (player.energy + pu.value) }
      | .weapon => { player with score := player.score + pu.value }
    let st := { st with players := setPlayer st.players pid (fun _ => player') }
    let (r, st) := takeRand st
    let pus := st.powerUps.set k { pu with active := false, respawnTime := 10 + r * 10 }
    let st := { st with powerUps := pus }
    addCollectionParticles st pu.position (getPowerUpColor pu.kind)
  | _, _ => st

/-- One step of the `projectiles.forEach` inside the `players.forEach` of
`checkCollisions`: visit index `k` if it is still populated, skip own
projectiles, and on a hit (distance < 20) resolve it and `splice(k, 1)`. -/
def projLoopStep (pid : String) (st : GameState) (k : ℕ) : GameState :=
  match st.projectiles[k]?, findPlayer st.players pid with
  | some proj, some player =>
    if proj.ownerId == player.playerId then st
    else if distLt player.position proj.position 20 then
      let st := handlePlayerHit st pid proj
      { st with projectiles := st.projectiles.eraseIdx k }
    else st
  | _, _ => st

/-- The `projectiles.forEach` of one player's collision pass: the index range
is the projectile count at loop entry (splices inside shift later elements
into already-visited or out-of-range indices, exactly as JS `forEach`). -/
def projLoop (pid : String) (st : GameState) : GameState :=
  (List.range st.projectiles.length).foldl (projLoopStep pid) st

/-- One step of the `powerUps.forEach` inside the `players.forEach`: active
power-ups within distance 25 are collected. -/
def powerUpLoopStep (pid : String) (st : GameState) (k : ℕ) : GameState :=
  match st.powerUps[k]?, findPlayer st.players pid with
  | some pu, some player =>
    if ¬pu.active then st
    else if distLt player.position pu.position 25 then handlePowerUpCollection st pid k
    else st
  | _, _ => st

/-- The `powerUps.forEach` of one player's collision pass. -/
def powerUpLoop (pid : String) (st : GameState) : GameState :=
  (List.range st.powerUps.length).foldl (powerUpLoopStep pid) st

/-- The `players.forEach` of `checkCollisions`: for each player (ids sampled
at loop entry; none are added or removed during the pass) run the projectile
pass then the power-up pass. -/
def playerCollisions (st : GameState) : GameState :=
  (st.players.map (fun p => p.id)).foldl (fun st pid => powerUpLoop pid (projLoop pid st)) st

/-- The `asteroids.forEach` inside the projectile-asteroid pass: `proj` is the
callback argument captured at index `k`; every asteroid within `asteroid.size`
of it spawns an orange explosion and executes `splice(k, 1)` again (repeated
splices at the same index remove subsequent projectiles - the source's
splice-while-iterating hazard, reproduced faithfully). -/
def astInner (proj : Projectile) (k : ℕ) (st : GameState) : GameState :=
  st.asteroids.foldl (fun st a =>
    if distLt proj.position a.position a.size then
      let st := addExplosionParticles st proj.position "orange"
      { st with projectiles := st.projectiles.eraseIdx k }
    else st) st

/-- One step of the outer `projectiles.forEach` of the projectile-asteroid
pass. -/
def projAstStep (st : GameState) (k : ℕ) : GameState :=
  match st.projectiles[k]? with
  | some proj => astInner proj k st
  | none => st

/-- The projectile-asteroid pass of `checkCollisions`. -/
def projAstLoop (st : GameState) : GameState :=
  (List.range st.projectiles.length).foldl projAstStep st

/-- `checkCollisions()`. -/
def checkCollisions (st : GameState) : GameState :=
  projAstLoop (playerCollisions st)

/-- `update()`: accumulate game time, then the per-tick pipeline. The
`deltaTime` wall-clock computation is the `dt` of the environment;
`sendNetworkUpdate` only invokes the outbound callback and mutates nothing. -/
def update (tr : Trig) (env : Env) (st : GameState) : GameState :=
  let st := { st with gameTime := st.gameTime + env.dt }
  let st := updatePlayers tr env st
  let st := updateProjectiles env st
  let st := updatePowerUps env st
  let st := updateAsteroids env st
  let st := updateParticles env st
  checkCollisions st

/-- A sequence of `update` calls, one per environment. -/
def applyTicks (tr : Trig) (envs : List Env) (st : GameState) : GameState :=
  envs.foldl (fun st e => update tr e st) st

/-- `createPlayer(id, name, position)`: the fresh full-resource player record;
`Map.set` overwrites an existing entry and appends otherwise. -/
def initialPlayer (pid : String) (pos : Vec2) : Player :=
  { id := pid, playerId := pid, position := pos, velocity := ⟨0, 0⟩, rotation := 0,
    health := 100, maxHealth := 100, shield := 100, maxShield := 100,
    energy := 100, maxEnergy := 100, score := 0, kills := 0, deaths := 0,
    weaponCooldown := 0, boostCooldown := 0, active := true }

/-- `createPlayer` as a store update. -/
def createPlayer (st : GameState) (pid : String) (pos : Vec2) : GameState :=
  if st.players.any (fun p => p.id == pid) then
    { st with players := setPlayer st.players pid (fun _ => initialPlayer pid pos) }
  else
    { st with players := st.players ++ [initialPlayer pid pos] }

/-- `initializeAsHost(playerId)`. -/
def initializeAsHost (st : GameState) (pid : String) : GameState :=
  createPlayer { st with isHost := true, localPlayerId := pid } pid ⟨100, 300⟩

/-- `initializeAsClient(playerId)`. -/
def initializeAsClient (st : GameState) (pid : String) : GameState :=
  createPlayer { st with isHost := false, localPlayerId := pid } pid ⟨700, 300⟩

/-- The power-up type table `["health", "shield", "energy", "weapon"]` indexed
by `Math.floor(Math.random() * types.length)`; with a random draw in `[0, 1)`
the floor is 0..3. -/
def powerUpTypeOf (r : ℚ) : PowerUpType :=
  if ⌊r * 4⌋ = 0 then .health
  else if ⌊r * 4⌋ = 1 then .shield
  else if ⌊r * 4⌋ = 2 then .energy
  else .weapon

/-- `generatePowerUps()`: pushes 8 fresh power-ups onto the existing
collection (the source never clears `this.powerUps` first). Per power-up the
source draws randoms for position.x, position.y, the type index, and the
value `25 + Math.random() * 25`. -/
def generatePowerUps (st0 : GameState) : GameState :=
  (List.range 8).foldl (fun st i =>
    let (rx, st) := takeRand st
    let (ry, st) := takeRand st
    let (rt, st) := takeRand st
    let (rv, st) := takeRand st
    { st with powerUps := st.powerUps ++
      [{ id := "powerup_" ++ toString i
         position := ⟨rx * st.canvasW, ry * st.canvasH⟩
         velocity := ⟨0, 0⟩
         rotation := 0
         health := 1
         maxHealth := 1
         kind := powerUpTypeOf rt
         value := 25 + rv * 25
         respawnTime := 0
         active := true }] }) st0

/-- `generateAsteroids()`: pushes 25 asteroids; per asteroid the source draws
randoms for position.x, position.y, velocity.x, velocity.y, rotation,
rotationSpeed, and size. -/
def generateAsteroids (st0 : GameState) : GameState :=
  (List.range 25).foldl (fun st i =>
    let (rx, st) := takeRand st
    let (ry, st) := takeRand st
    let (rvx, st) := takeRand st
    let (rvy, st) := takeRand st
    let (rr, st) := takeRand st
    let (rrs, st) := takeRand st
    let (rs, st) := takeRand st
    { st with asteroids := st.asteroids ++
      [{ id := "asteroid_" ++ toString i
         position := ⟨rx * st.canvasW, ry * st.canvasH⟩
         velocity := ⟨(rvx - 1/2) * 2, (rvy - 1/2) * 2⟩
         rotation := rr * 2 * (355/113)
         health := 50
         maxHealth := 50
         size := 20 + rs * 30
         rotationSpeed := (rrs - 1/2) * (1/10)
         active := true }] }) st0

/-- The state right after the `GameEngine` constructor: empty collections,
then `generateAsteroids()` and `generatePowerUps()`. `Math.PI` in the
asteroid rotation is an arbitrary constant absorbed by the abstract random
draw; the embedding uses 355/113 (no claim depends on it). -/
def mkEngine (w h : ℚ) (rand : ℕ → ℚ) : GameState :=
  generatePowerUps (generateAsteroids
    { players := [], projectiles := [], powerUps := [], asteroids := [], particles := [],
      gameTime := 0, isHost := false, localPlayerId := "", canvasW := w, canvasH := h,
      rand := rand, ridx := 0 })

/-- `resetGame()`: clears players/projectiles/particles and the clock, then
calls `generatePowerUps()`; asteroids are untouched. -/
def resetGame (st : GameState) : GameState :=
  generatePowerUps { st with players := [], projectiles := [], particles := [], gameTime := 0 }

/-- `isGameFinished()`. -/
def isGameFinished (st : GameState) : Bool :=
  decide (st.gameTime > 300) || st.players.any (fun p => p.score ≥ 1000)

/-- The spec's per-player resource bounds:
`0 ≤ health ≤ maxHealth`, `0 ≤ shield ≤ maxShield`, `0 ≤ energy ≤ maxEnergy`. -/
def PBounds (p : Player) : Prop :=
  0 ≤ p.health ∧ p.health ≤ p.maxHealth ∧ 0 ≤ p.shield ∧ p.shield ≤ p.maxShield ∧
  0 ≤ p.energy ∧ p.energy ≤ p.maxEnergy

instance : DecidablePred PBounds := fun p => by unfold PBounds; infer_instance

/-- The inductive invariant for the tick pipeline: the player store has
distinct keys (it images a JS `Map`), every player is within bounds, and
every projectile damage and power-up value is nonnegative (the engine only
ever creates damage 25 and values in `[25, 50)`). -/
def Inv (st : GameState) : Prop :=
  (st.players.map (fun p => p.id)).Nodup ∧
  (∀ p ∈ st.players, PBounds p) ∧
  (∀ pr ∈ st.projectiles, 0 ≤ pr.damage) ∧
  (∀ pu ∈ st.powerUps, 0 ≤ pu.value)

/-! Concrete sample data used by witnesses and counterexamples. -/

/-- Abstract trig instantiated at heading 0: `cos 0 = 1`, `sin 0 = 0`. -/
def trOne : Trig := ⟨fun _ => 1, fun _ => 0, fun _ _ => 0⟩

/-- A concrete `Math.random()` oracle. -/
def halfRand : ℕ → ℚ := fun _ => 1/2

/-- A tick with no keys held and the mouse up, `deltaTime = 0.2`. -/
def idleEnv : Env :=
  { dt := 1/5, keyW := false, keyS := false, keyA := false, keyD := false,
    space := false, mouseX := 0, mouseY := 0, mousePressed := false }

/-- A tick holding only the boost key, `deltaTime = 0.5`. -/
def boostEnv : Env := { idleEnv with dt := 1/2, space := true }

/-- A host-side state with explicit entity collections; local player "A". -/
def sampleState (ps : List Player) (prs : List Projectile) (asts : List Asteroid) : GameState :=
  { players := ps, projectiles := prs, powerUps := [], asteroids := asts, particles := [],
    gameTime := 0, isHost := true, localPlayerId := "A", canvasW := 800, canvasH := 600,
    rand := halfRand, ridx := 0 }

/-- The constructor-produced state on a 800x600 canvas. -/
def engine0 : GameState := mkEngine 800 600 halfRand

/-- The constructor-produced state after `initializeAsHost("A")`. -/
def hostA : GameState := initializeAsHost engine0 "A"

/-- A full-resource local player with 0.1 s of weapon cooldown remaining. -/
def cdPlayer : Player := { initialPlayer "A" ⟨0, 0⟩ with weaponCooldown := 1/10 }

/-- A projectile owned by remote player "B", on the x-axis. -/
def enemyProjectile (pid : String) (x : ℚ) : Projectile :=
  { id := pid, position := ⟨x, 0⟩, velocity := ⟨0, 0⟩, rotation := 0, health := 1,
    maxHealth := 1, ownerId := "B", damage := 25, lifetime := 3, active := true }

/-- A concrete asteroid with nonzero velocity. -/
def dragAsteroid : Asteroid :=
  { id := "asteroid_0", position := ⟨100, 100⟩, velocity := ⟨1, 2⟩, rotation := 0,
    health := 50, maxHealth := 50, size := 25, rotationSpeed := 1/20, active := true }

/-! ### Library of small facts about the embedding -/

theorem findPlayer_id {ps : List Player} {pid : String} {p : Player}
    (h : findPlayer ps pid = some p) : p.id = pid := by
  induction ps with
  | nil => simp [findPlayer] at h
  | cons q qs ih =>
    by_cases hq : q.id = pid
    · simp only [findPlayer, if_pos hq] at h
      injection h with h
      subst h; exact hq
    · simp only [findPlayer, if_neg hq] at h
      exact ih h

theorem findPlayer_mem {ps : List Player} {pid : String} {p : Player}
    (h : findPlayer ps pid = some p) : p ∈ ps := by
  induction ps with
  | nil => simp [findPlayer] at h
  | cons q qs ih =>
    by_cases hq : q.id = pid
    · simp only [findPlayer, if_pos hq] at h
      injection h with h
      subst h; exact List.mem_cons_self _ _
    · simp only [findPlayer, if_neg hq] at h
      exact List.mem_cons_of_mem _ (ih h)

theorem findPlayer_set_same {ps : List Player} {pid : String} {p : Player} {f : Player → Player}
    (hid : (f p).id = p.id) (hfind : findPlayer ps pid = some p) :
    findPlayer (setPlayer ps pid f) pid = some (f p) := by
  induction ps with
  | nil => simp [findPlayer] at hfind
  | cons q qs ih =>
    by_cases hq : q.id = pid
    · simp only [findPlayer, if_pos hq] at hfind
      injection hfind with hfind
      subst hfind
      have hfq : (f q).id = pid := by rw [hid]; exact hq
      simp only [setPlayer, List.map_cons, findPlayer, if_pos hq, if_pos hfq]
    · simp only [findPlayer, if_neg hq] at hfind
      have := ih hfind
      simp only [setPlayer, List.map_cons, findPlayer, if_neg hq] at this ⊢
      exact this

theorem findPlayer_set_other {ps : List Player} {tid pid : String} {f : Player → Player}
    (hne : tid ≠ pid) (hid : ∀ q : Player, q.id = tid → (f q).id = q.id) :
    findPlayer (setPlayer ps tid f) pid = findPlayer ps pid := by
  induction ps with
  | nil => rfl
  | cons q qs ih =>
    by_cases hq : q.id = tid
    · have hqp : ¬q.id = pid := fun h => hne (by rw [← hq, h])
      have hfp : ¬(f q).id = pid := by rw [hid q hq]; exact hqp
      simp only [setPlayer, List.map_cons, findPlayer, if_pos hq, if_neg hfp, if_neg hqp]
      exact ih
    · by_cases hp : q.id = pid
      · simp only [setPlayer, List.map_cons, findPlayer, if_neg hq, if_pos hp]
      · simp only [setPlayer, List.map_cons, findPlayer, if_neg hq, if_neg hp]
        exact ih

theorem setPlayer_length (ps : List Player) (tid : String) (f : Player → Player) :
    (setPlayer ps tid f).length = ps.length :=
  List.length_map _ _

theorem mem_setPlayer {ps : List Player} {tid : String} {f : Player → Player} {q : Player}
    (h : q ∈ setPlayer ps tid f) : ∃ p ∈ ps, q = if p.id = tid then f p else p := by
  simpa [setPlayer, List.mem_map, eq_comm] using h

/-- Pushing an invariant of a state projection through a `List.foldl` whose
step preserves it. -/
theorem foldl_proj_const {α β : Type} (proj : GameState → β) (f : GameState → α → GameState)
    (h : ∀ st a, proj (f st a) = proj st) :
    ∀ (l : List α) (st : GameState), proj (l.foldl f st) = proj st := by
  intro l
  induction l with
  | nil => intro st; rfl
  | cons a l ih => intro st; rw [List.foldl_cons, ih, h]

/-- A `List.foldl` whose step advances the oracle cursor by `k` advances it
by `k` per element overall. -/
theorem foldl_ridx_shift {α : Type} (f : GameState → α → GameState) (k : ℕ)
    (h : ∀ st a, (f st a).ridx = st.ridx + k) :
    ∀ (l : List α) (st : GameState), (l.foldl f st).ridx = st.ridx + l.length * k := by
  intro l
  induction l with
  | nil => intro st; simp
  | cons a l ih =>
    intro st
    rw [List.foldl_cons, ih, h]
    simp [List.length_cons]
    ring

theorem addEngineParticles_players (tr : Trig) (st : GameState) (p : Player) :
    (addEngineParticles tr st p).players = st.players := by
  unfold addEngineParticles
  apply foldl_proj_const (fun s => s.players)
  intro st a
  rfl

theorem addBoostParticles_players (st : GameState) (pos : Vec2) :
    (addBoostParticles st pos).players = st.players := by
  unfold addBoostParticles
  apply foldl_proj_const (fun s => s.players)
  intro st a
  rfl

theorem addBoostParticles_localPlayerId (st : GameState) (pos : Vec2) :
    (addBoostParticles st pos).localPlayerId = st.localPlayerId := by
  unfold addBoostParticles
  apply foldl_proj_const (fun s => s.localPlayerId)
  intro st a
  rfl

theorem addMuzzleFlashParticles_players (tr : Trig) (st : GameState) (p : Player) :
    (addMuzzleFlashParticles tr st p).players = st.players := by
  unfold addMuzzleFlashParticles
  apply foldl_proj_const (fun s => s.players)
  intro st a
  rfl

theorem addMuzzleFlashParticles_projectiles (tr : Trig) (st : GameState) (p : Player) :
    (addMuzzleFlashParticles tr st p).projectiles = st.projectiles := by
  unfold addMuzzleFlashParticles
  apply foldl_proj_const (fun s => s.projectiles)
  intro st a
  rfl

theorem addMuzzleFlashParticles_localPlayerId (tr : Trig) (st : GameState) (p : Player) :
    (addMuzzleFlashParticles tr st p).localPlayerId = st.localPlayerId := by
  unfold addMuzzleFlashParticles
  apply foldl_proj_const (fun s => s.localPlayerId)
  intro st a
  rfl

theorem addHitParticles_players (st : GameState) (pos : Vec2) :
    (addHitParticles st pos).players = st.players := by
  unfold addHitParticles
  apply foldl_proj_const (fun s => s.players)
  intro st a
  rfl

theorem addHitParticles_projectiles (st : GameState) (pos : Vec2) :
    (addHitParticles st pos).projectiles = st.projectiles := by
  unfold addHitParticles
  apply foldl_proj_const (fun s => s.projectiles)
  intro st a
  rfl

theorem addHitParticles_powerUps (st : GameState) (pos : Vec2) :
    (addHitParticles st pos).powerUps = st.powerUps := by
  unfold addHitParticles
  apply foldl_proj_const (fun s => s.powerUps)
  intro st a
  rfl

theorem addHitParticles_ridx (st : GameState) (pos : Vec2) :
    (addHitParticles st pos).ridx = st.ridx + 24 := by
  unfold addHitParticles
  apply foldl_ridx_shift _ 4
  intro st a
  rfl

theorem addHitParticles_rand (st : GameState) (pos : Vec2) :
    (addHitParticles st pos).rand = st.rand := by
  unfold addHitParticles
  apply foldl_proj_const (fun s => s.rand)
  intro st a
  rfl

theorem addHitParticles_canvasW (st : GameState) (pos : Vec2) :
    (addHitParticles st pos).canvasW = st.canvasW := by
  unfold addHitParticles
  apply foldl_proj_const (fun s => s.canvasW)
  intro st a
  rfl

theorem addHitParticles_canvasH (st : GameState) (pos : Vec2) :
    (addHitParticles st pos).canvasH = st.canvasH := by
  unfold addHitParticles
  apply foldl_proj_const (fun s => s.canvasH)
  intro st a
  rfl

theorem addExplosionParticles_players (st : GameState) (pos : Vec2) (c : String) :
    (addExplosionParticles st pos c).players = st.players := by
  unfold addExplosionParticles
  apply foldl_proj_const (fun s => s.players)
  intro st a
  rfl

theorem addExplosionParticles_projectiles (st : GameState) (pos : Vec2) (c : String) :
    (addExplosionParticles st pos c).projectiles = st.projectiles := by
  unfold addExplosionParticles
  apply foldl_proj_const (fun s => s.projectiles)
  intro st a
  rfl

theorem addExplosionParticles_powerUps (st : GameState) (pos : Vec2) (c : String) :
    (addExplosionParticles st pos c).powerUps = st.powerUps := by
  unfold addExplosionParticles
  apply foldl_proj_const (fun s => s.powerUps)
  intro st a
  rfl

theorem addCollectionParticles_players (st : GameState) (pos : Vec2) (c : String) :
    (addCollectionParticles st pos c).players = st.players := by
  unfold addCollectionParticles
  apply foldl_proj_const (fun s => s.players)
  intro st a
  rfl

theorem addCollectionParticles_projectiles (st : GameState) (pos : Vec2) (c : String) :
    (addCollectionParticles st pos c).projectiles = st.projectiles := by
  unfold addCollectionParticles
  apply foldl_proj_const (fun s => s.projectiles)
  intro st a
  rfl

theorem addCollectionParticles_powerUps (st : GameState) (pos : Vec2) (c : String) :
    (addCollectionParticles st pos c).powerUps = st.powerUps := by
  unfold addCollectionParticles
  apply foldl_proj_const (fun s => s.powerUps)
  intro st a
  rfl

theorem withLocal_some {st : GameState} {p : Player} (k : GameState → Player → GameState)
    (hfind : findPlayer st.players st.localPlayerId = some p) :
    withLocal st k = k st p := by
  unfold withLocal
  rw [hfind]

theorem findPlayer_modifyLocal {st : GameState} {p : Player} (f : Player → Player)
    (hid : (f p).id = p.id) (hfind : findPlayer st.players st.localPlayerId = some p) :
    findPlayer (modifyLocal st f).players st.localPlayerId = some (f p) :=
  findPlayer_set_same hid hfind

theorem modifyLocal_localPlayerId (st : GameState) (f : Player → Player) :
    (modifyLocal st f).localPlayerId = st.localPlayerId := rfl

theorem generatePowerUps_players (s : GameState) :
    (generatePowerUps s).players = s.players := by
  unfold generatePowerUps
  apply foldl_proj_const (fun s => s.players)
  intro st a
  rfl

theorem generatePowerUps_projectiles (s : GameState) :
    (generatePowerUps s).projectiles = s.projectiles := by
  unfold generatePowerUps
  apply foldl_proj_const (fun s => s.projectiles)
  intro st a
  rfl

theorem generatePowerUps_particles (s : GameState) :
    (generatePowerUps s).particles = s.particles := by
  unfold generatePowerUps
  apply foldl_proj_const (fun s => s.particles)
  intro st a
  rfl

theorem generatePowerUps_asteroids (s : GameState) :
    (generatePowerUps s).asteroids = s.asteroids := by
  unfold generatePowerUps
  apply foldl_proj_const (fun s => s.asteroids)
  intro st a
  rfl

theorem generatePowerUps_gameTime (s : GameState) :
    (generatePowerUps s).gameTime = s.gameTime := by
  unfold generatePowerUps
  apply foldl_proj_const (fun s => s.gameTime)
  intro st a
  rfl

/-- A `List.foldl` whose step appends one power-up grows the collection by
the length of the index list. -/
theorem foldl_powerUps_shift (f : GameState → ℕ → GameState)
    (h : ∀ st a, (f st a).powerUps.length = st.powerUps.length + 1) :
    ∀ (l : List ℕ) (st : GameState),
      (l.foldl f st).powerUps.length = st.powerUps.length + l.length := by
  intro l
  induction l with
  | nil => intro st; simp
  | cons a l ih =>
    intro st
    rw [List.foldl_cons, ih, h]
    simp [List.length_cons]
    omega

theorem generatePowerUps_length (s : GameState) :
    (generatePowerUps s).powerUps.length = s.powerUps.length + 8 := by
  unfold generatePowerUps
  apply foldl_powerUps_shift
  intro st a
  simp [takeRand]

/-! ### C6: cooldown clamping -/

unseal Rat.mul Rat.add Rat.sub Rat.inv in
/-- C6, counterexample: the claim says a weaponCooldown of 0.1 updated with
deltaTime 0.2 ends at 0 and that cooldowns are never negative after the
tick's cooldown update; on the code the local player's weaponCooldown ends
the tick at -0.1. -/
theorem c6_counterexample :
    ((updatePlayers trOne idleEnv (sampleState [cdPlayer] [] [])).players.map
        (fun p => p.weaponCooldown) = [-(1/10)]) ∧
    ¬(∀ p ∈ (updatePlayers trOne idleEnv (sampleState [cdPlayer] [] [])).players,
        0 ≤ p.weaponCooldown) := by
  decide

/-- C6, amended: the per-tick cooldown update does not clamp at 0: a positive
cooldown is decremented by deltaTime and may become negative (a weaponCooldown
of 0.1 with deltaTime 0.2 ends at -0.1, not 0); a non-positive cooldown is left
unchanged, so after the update each cooldown is at least -deltaTime whenever it
was nonnegative before. -/
theorem c6_amended_cooldowns (env : Env) (w h : ℚ) (p : Player) (hdt : 0 ≤ env.dt) :
    (0 ≤ p.weaponCooldown → -env.dt ≤ (updatePlayerTick env w h p).weaponCooldown) ∧
    (p.weaponCooldown ≤ 0 → (updatePlayerTick env w h p).weaponCooldown = p.weaponCooldown) ∧
    (0 ≤ p.boostCooldown → -env.dt ≤ (updatePlayerTick env w h p).boostCooldown) ∧
    (p.boostCooldown ≤ 0 → (updatePlayerTick env w h p).boostCooldown = p.boostCooldown) ∧
    (p.weaponCooldown = 1/10 → env.dt = 1/5 →
      (updatePlayerTick env w h p).weaponCooldown = -(1/10)) := by
  have hwc : (updatePlayerTick env w h p).weaponCooldown =
      (if p.weaponCooldown > 0 then p.weaponCooldown - env.dt else p.weaponCooldown) := rfl
  have hbc : (updatePlayerTick env w h p).boostCooldown =
      (if p.boostCooldown > 0 then p.boostCooldown - env.dt else p.boostCooldown) := rfl
  refine ⟨?_, ?_, ?_, ?_, ?_⟩
  · intro h0
    rw [hwc]
    split_ifs with h1 <;> linarith
  · intro h0
    rw [hwc, if_neg (by linarith)]
  · intro h0
    rw [hbc]
    split_ifs with h1 <;> linarith
  · intro h0
    rw [hbc, if_neg (by linarith)]
  · intro h1 h2
    rw [hwc, if_pos (by rw [h1]; norm_num), h1, h2]
    norm_num

/-- C6, witness for the amended theorem at the concrete example. -/
theorem c6_witness :
    (updatePlayerTick idleEnv 800 600 cdPlayer).weaponCooldown = -(1/10) :=
  (c6_amended_cooldowns idleEnv 800 600 cdPlayer (by norm_num [idleEnv])).2.2.2.2 rfl rfl

/-! ### C8: asteroid drag -/

unseal Rat.mul Rat.add Rat.sub Rat.inv in
/-- C8, counterexample: the claim says every asteroid's velocity is multiplied
by 0.98 each tick after integration; on the code an asteroid with velocity
(1, 2) still has velocity (1, 2) after `updateAsteroids`. -/
theorem c8_counterexample :
    ((updateAsteroids idleEnv (sampleState [] [] [dragAsteroid])).asteroids.map
        (fun a => a.velocity) = [⟨1, 2⟩]) ∧
    ((⟨1, 2⟩ : Vec2) ≠ ⟨1 * (98/100), 2 * (98/100)⟩) := by
  decide

/-- C8, amended: asteroids receive no drag at all: after position integration
at the 60x time-scale an asteroid's velocity is unchanged (its rotation
advances by its spin rate); the 0.98 multiplicative drag is applied to
players' velocity after their integration. -/
theorem c8_amended_no_asteroid_drag (env : Env) (st : GameState) :
    List.Forall₂ (fun a b => b.velocity = a.velocity ∧ b.rotation = a.rotation + a.rotationSpeed)
      st.asteroids (updateAsteroids env st).asteroids ∧
    ∀ p : Player, (updatePlayerTick env st.canvasW st.canvasH p).velocity =
      ⟨p.velocity.x * (98/100), p.velocity.y * (98/100)⟩ := by
  constructor
  · show List.Forall₂ _ st.asteroids (st.asteroids.map (asteroidTick env st.canvasW st.canvasH))
    rw [List.forall₂_map_right_iff, List.forall₂_same]
    intro a ha
    exact ⟨rfl, rfl⟩
  · intro p
    rfl

/-! ### C9: reset behavior -/

unseal Rat.mul Rat.add Rat.sub Rat.inv in
/-- C9, counterexample: the claim says the power-up collection has the fixed
count 8 after `resetGame`; on the code a session started with 8 power-ups has
16 after one reset, because `generatePowerUps` appends without clearing. -/
theorem c9_counterexample :
    (resetGame hostA).powerUps.length = 16 ∧ (resetGame hostA).powerUps.length ≠ 8 := by
  decide

/-- C9, amended: after `resetGame` the projectile and particle collections are
empty, elapsed game time is 0, the asteroid collection is exactly the one from
before the reset, the player store is cleared, and 8 freshly generated
power-ups are appended to the existing power-up collection (so the count grows
by 8 per reset instead of staying at the fixed session-start count 8). -/
theorem c9_amended_reset (st : GameState) :
    (resetGame st).projectiles = [] ∧ (resetGame st).particles = [] ∧
    (resetGame st).gameTime = 0 ∧ (resetGame st).asteroids = st.asteroids ∧
    (resetGame st).players = [] ∧
    (resetGame st).powerUps.length = st.powerUps.length + 8 := by
  unfold resetGame
  refine ⟨?_, ?_, ?_, ?_, ?_, ?_⟩
  · rw [generatePowerUps_projectiles]
  · rw [generatePowerUps_particles]
  · rw [generatePowerUps_gameTime]
  · rw [generatePowerUps_asteroids]
  · rw [generatePowerUps_players]
  · rw [generatePowerUps_length]

/-! ### C5: collision pass and splice-while-iterating -/

unseal Rat.mul Rat.add Rat.sub Rat.inv in
/-- C5: the spec requires every active player-projectile pair to be
considered exactly once per tick; on the code, consuming projectile p0 via
`splice` shifts p1 into the visited index, so the pair (A, p1) is never
examined: after `checkCollisions` on a state where both p0 and p1 are enemy
projectiles within hit range of player A, p1 survives the tick and A's shield
shows a single 25-damage hit (75), although the surviving p1 is still an
active enemy projectile inside the 20-unit hit radius. -/
theorem c5_skipped_projectile :
    ((checkCollisions (sampleState [initialPlayer "A" ⟨0, 0⟩]
        [enemyProjectile "p0" 5, enemyProjectile "p1" 6] [])).projectiles.map
          (fun pr => pr.id) = ["p1"]) ∧
    ((findPlayer (checkCollisions (sampleState [initialPlayer "A" ⟨0, 0⟩]
        [enemyProjectile "p0" 5, enemyProjectile "p1" 6] [])).players "A").map
          (fun p => p.shield) = some 75) ∧
    (∀ pr ∈ (checkCollisions (sampleState [initialPlayer "A" ⟨0, 0⟩]
        [enemyProjectile "p0" 5, enemyProjectile "p1" 6] [])).projectiles,
      distLt ⟨0, 0⟩ pr.position 20 = true ∧ pr.ownerId ≠ "A") := by
  decide

/-! ### C2: shield-before-health damage -/

/-- Closed form of the shield-then-health damage application of
`handlePlayerHit`: the shield ends at `max (shield - damage) 0` and health
drops by exactly the leftover `max (damage - shield) 0`. -/
theorem hitResult_eq (p : Player) (d : ℚ) (hs : 0 ≤ p.shield) (hd : 0 ≤ d) :
    hitResult p d = { p with shield := max (p.shield - d) 0,
                             health := p.health - max (d - p.shield) 0 } := by
  unfold hitResult
  by_cases h1 : p.shield > 0
  · rw [if_pos h1]
    dsimp only
    by_cases h2 : d - min p.shield d > 0
    · rw [if_pos h2]
      have e1 : p.shield - min p.shield d = max (p.shield - d) 0 := by
        rcases le_total p.shield d with h | h
        · rw [min_eq_left h, max_eq_right (by linarith : p.shield - d ≤ 0)]
          ring
        · rw [min_eq_right h, max_eq_left (by linarith : (0:ℚ) ≤ p.shield - d)]
      have e2 : d - min p.shield d = max (d - p.shield) 0 := by
        rcases le_total p.shield d with h | h
        · rw [min_eq_left h, max_eq_left (by linarith : (0:ℚ) ≤ d - p.shield)]
        · rw [min_eq_right h, max_eq_right (by linarith : d - p.shield ≤ 0)]
          ring
      rw [e1, e2]
    · rw [if_neg h2]
      push_neg at h2
      have hmin := min_le_left p.shield d
      have hds : d ≤ p.shield := by linarith
      have e1 : p.shield - min p.shield d = max (p.shield - d) 0 := by
        rw [min_eq_right hds, max_eq_left (by linarith : (0:ℚ) ≤ p.shield - d)]
      rw [e1, max_eq_right (by linarith : d - p.shield ≤ 0), sub_zero]
  · rw [if_neg h1]
    dsimp only
    have hs0 : p.shield = 0 := le_antisymm (by linarith) hs
    by_cases h2 : d > 0
    · rw [if_pos h2]
      have eA : max (p.shield - d) 0 = p.shield := by
        rw [hs0, zero_sub]
        exact max_eq_right (by linarith)
      have eB : max (d - p.shield) 0 = d := by
        rw [hs0, sub_zero]
        exact max_eq_left hd
      rw [eA, eB]
    · rw [if_neg h2]
      have hd0 : d = 0 := le_antisymm (by linarith) hd
      have eA : max (p.shield - d) 0 = p.shield := by
        rw [hd0, sub_zero]
        exact max_eq_left hs
      have eB : max (d - p.shield) 0 = 0 := by
        rw [hd0, zero_sub]
        exact max_eq_right (by linarith)
      rw [eA, eB, sub_zero]

/-- C2: on a hit resolved by `handlePlayerHit`, the shield absorbs damage up
to its full remaining value first (`max (shield - damage) 0` remains) and
only the leftover `max (damage - shield) 0` subtracts from health; all other
player fields are unchanged, provided the leftover does not drive health to 0
or below (the concrete shield=30/health=100/damage=50 instance is the
witness). -/
theorem c2_shield_before_health (st : GameState) (pid : String) (proj : Projectile) (p : Player)
    (hfind : findPlayer st.players pid = some p)
    (hs : 0 ≤ p.shield) (hd : 0 ≤ proj.damage)
    (hsurv : 0 < p.health - max (proj.damage - p.shield) 0) :
    findPlayer (handlePlayerHit st pid proj).players pid =
      some { p with shield := max (p.shield - proj.damage) 0,
                    health := p.health - max (proj.damage - p.shield) 0 } := by
  simp only [handlePlayerHit, hfind]
  rw [hitResult_eq p proj.damage hs hd]
  rw [if_neg (by
    show ¬(p.health - max (proj.damage - p.shield) 0 ≤ 0)
    linarith)]
  rw [addHitParticles_players]
  exact findPlayer_set_same (p := p) rfl hfind

unseal Rat.mul Rat.add Rat.sub Rat.inv in
/-- C2, witness: shield=30, health=100, hit by damage 50 yields shield=0,
health=80. -/
theorem c2_witness :
    (findPlayer (handlePlayerHit (sampleState [{ initialPlayer "A" ⟨0, 0⟩ with shield := 30 }] [] [])
        "A" { enemyProjectile "p0" 5 with damage := 50 }).players "A").map
      (fun q => (q.shield, q.health)) = some (0, 80) := by
  rw [c2_shield_before_health _ _ _ { initialPlayer "A" ⟨0, 0⟩ with shield := 30 }
    (by decide) (by decide) (by decide) (by decide)]
  decide

/-! ### C4: fire gating -/

/-- C4: a fire action spawns a projectile iff the local player exists with
`weaponCooldown ≤ 0` and `energy ≥ 10`; on success exactly one projectile is
appended (damage 25, lifetime 3, velocity 400 along the heading, owned by the
shooter), `weaponCooldown` becomes 0.2 and energy drops by exactly 10, and a
second fire within the fresh cooldown is a no-op (so two calls produce one
projectile); when the precondition fails, or the local player is absent, the
state is completely unchanged. -/
theorem c4_fire_gating (tr : Trig) (st : GameState) :
    (∀ p, findPlayer st.players st.localPlayerId = some p →
      p.weaponCooldown ≤ 0 → 10 ≤ p.energy →
      ((handleShooting tr st).projectiles = st.projectiles ++
          [{ id := "projectile_" ++ ratStr (st.rand st.ridx),
             position := p.position,
             velocity := ⟨tr.cos p.rotation * 400, tr.sin p.rotation * 400⟩,
             rotation := p.rotation, health := 1, maxHealth := 1,
             ownerId := p.playerId, damage := 25, lifetime := 3, active := true }]) ∧
        (findPlayer (handleShooting tr st).players st.localPlayerId =
          some { p with weaponCooldown := 1/5, energy := p.energy - 10 }) ∧
        handleShooting tr (handleShooting tr st) = handleShooting tr st) ∧
    (∀ p, findPlayer st.players st.localPlayerId = some p →
      (0 < p.weaponCooldown ∨ p.energy < 10) → handleShooting tr st = st) ∧
    (findPlayer st.players st.localPlayerId = none → handleShooting tr st = st) := by
  have hfail : ∀ (s : GameState) p, findPlayer s.players s.localPlayerId = some p →
      (0 < p.weaponCooldown ∨ p.energy < 10) → handleShooting tr s = s := by
    intro s p hfind hcond
    simp only [handleShooting, hfind]
    rw [if_pos hcond]
  refine ⟨?_, hfail st, ?_⟩
  · intro p hfind hwc hen
    have hcond : ¬(p.weaponCooldown > 0 ∨ p.energy < 10) := by
      push_neg
      exact ⟨hwc, hen⟩
    have hplayers : findPlayer (handleShooting tr st).players st.localPlayerId =
        some { p with weaponCooldown := 1/5, energy := p.energy - 10 } := by
      simp only [handleShooting, hfind]
      rw [if_neg hcond]
      rw [addMuzzleFlashParticles_players]
      exact findPlayer_set_same (p := p) rfl hfind
    refine ⟨?_, hplayers, ?_⟩
    · simp only [handleShooting, hfind]
      rw [if_neg hcond]
      rw [addMuzzleFlashParticles_projectiles]
      rfl
    · have hlocal : (handleShooting tr st).localPlayerId = st.localPlayerId := by
        simp only [handleShooting, hfind]
        rw [if_neg hcond]
        rw [addMuzzleFlashParticles_localPlayerId]
        rfl
      refine hfail (handleShooting tr st)
        { p with weaponCooldown := 1/5, energy := p.energy - 10 } ?_
        (Or.inl (by show (0:ℚ) < 1/5; norm_num))
      rw [hlocal]
      exact hplayers
  · intro hnone
    simp only [handleShooting, hnone]

unseal Rat.mul Rat.add Rat.sub Rat.inv in
/-- C4, witness: from the freshly initialized host state, one fire succeeds
(energy 100 ≥ 10, cooldown 0 ≤ 0) and appends exactly one projectile; the
immediate second fire is a no-op. -/
theorem c4_witness :
    (handleShooting trOne hostA).projectiles.length = hostA.projectiles.length + 1 ∧
    handleShooting trOne (handleShooting trOne hostA) = handleShooting trOne hostA := by
  obtain ⟨h1, _, h3⟩ := (c4_fire_gating trOne hostA).1 (initialPlayer "A" ⟨100, 300⟩)
    (by decide) (by decide) (by decide)
  constructor
  · rw [h1]
    simp
  · exact h3

/-! ### C7: boost impulse -/

unseal Rat.mul Rat.add Rat.sub Rat.inv in
/-- C7, counterexample: the claim says boost adds an instantaneous velocity
impulse of magnitude 10 along the heading, independent of deltaTime; on the
code, with heading cos = 1, full energy and deltaTime 0.5, the velocity gain
is 10 * 0.5 = 5, not 10. -/
theorem c7_counterexample :
    ((findPlayer (handlePlayerInput trOne boostEnv
        (sampleState [initialPlayer "A" ⟨0, 0⟩] [] [])).players "A").map
      (fun q => q.velocity.x) = some 5) ∧
    ¬((findPlayer (handlePlayerInput trOne boostEnv
        (sampleState [initialPlayer "A" ⟨0, 0⟩] [] [])).players "A").map
      (fun q => q.velocity.x) = some 10) := by
  decide

/-- Lookup of the local player after the boost mutation and its particle
burst. -/
theorem findPlayer_boostWrap (st : GameState) (f : Player → Player) (pos : Vec2) {p : Player}
    (hfind : findPlayer st.players st.localPlayerId = some p) (hid : (f p).id = p.id) :
    (findPlayer (addBoostParticles (modifyLocal st f) pos).players
      (addBoostParticles (modifyLocal st f) pos).localPlayerId = some (f p)) ∧
    (addBoostParticles (modifyLocal st f) pos).localPlayerId = st.localPlayerId := by
  constructor
  · rw [addBoostParticles_players, addBoostParticles_localPlayerId]
    exact findPlayer_set_same hid hfind
  · rw [addBoostParticles_localPlayerId]
    rfl

/-- C7, amended: with only the boost key held, a local player with
`energy > 20` and `boostCooldown ≤ 0` gains a deltaTime-scaled velocity
impulse of `10 * deltaTime` along the heading (not a fixed 10), loses exactly
20 energy, and gets `boostCooldown = 1`; with `energy ≤ 20` or
`boostCooldown > 0` the boost has no effect (only the aim-facing rotation
override still applies). -/
theorem c7_amended_boost (tr : Trig) (env : Env) (st : GameState) (p : Player)
    (hfind : findPlayer st.players st.localPlayerId = some p)
    (hW : env.keyW = false) (hS : env.keyS = false) (hA : env.keyA = false)
    (hD : env.keyD = false) (hSp : env.space = true) (hM : env.mousePressed = false) :
    ((p.energy > 20 ∧ p.boostCooldown ≤ 0) →
      findPlayer (handlePlayerInput tr env st).players st.localPlayerId =
        some { p with
          velocity := ⟨p.velocity.x + tr.cos p.rotation * 10 * env.dt,
                       p.velocity.y + tr.sin p.rotation * 10 * env.dt⟩,
          energy := p.energy - 20, boostCooldown := 1,
          rotation := tr.atan2 (env.mouseY - p.position.y) (env.mouseX - p.position.x) }) ∧
    ((p.energy ≤ 20 ∨ 0 < p.boostCooldown) →
      findPlayer (handlePlayerInput tr env st).players st.localPlayerId =
        some { p with
          rotation := tr.atan2 (env.mouseY - p.position.y) (env.mouseX - p.position.x) }) := by
  constructor
  · rintro ⟨hE, hB⟩
    simp only [handlePlayerInput, hW, hS, hA, hD, hSp, hM, Bool.false_eq_true, if_false,
      eq_self_iff_true, true_and, reduceIte]
    rw [withLocal_some _ hfind]
    rw [if_pos ⟨hE, hB⟩]
    obtain ⟨h6, hloc6⟩ := findPlayer_boostWrap st (fun q =>
      { q with velocity := ⟨q.velocity.x + tr.cos q.rotation * 10 * env.dt,
                            q.velocity.y + tr.sin q.rotation * 10 * env.dt⟩,
               energy := q.energy - 20, boostCooldown := 1 }) p.position hfind rfl
    rw [withLocal_some _ h6]
    rw [← hloc6]
    exact findPlayer_modifyLocal _ rfl h6
  · intro hno
    have hneg : ¬(p.energy > 20 ∧ p.boostCooldown ≤ 0) := by
      rintro ⟨h1, h2⟩
      rcases hno with h | h <;> linarith
    simp only [handlePlayerInput, hW, hS, hA, hD, hSp, hM, Bool.false_eq_true, if_false,
      eq_self_iff_true, true_and, reduceIte]
    rw [withLocal_some _ hfind]
    rw [if_neg hneg]
    rw [withLocal_some _ hfind]
    exact findPlayer_modifyLocal _ rfl hfind

unseal Rat.mul Rat.add Rat.sub Rat.inv in
/-- C7, witness for the amended theorem: boost with cos = 1, deltaTime 0.5
from rest yields velocity.x = 5, energy 80, boostCooldown 1. -/
theorem c7_witness :
    (findPlayer (handlePlayerInput trOne boostEnv
        (sampleState [initialPlayer "A" ⟨0, 0⟩] [] [])).players
      (sampleState [initialPlayer "A" ⟨0, 0⟩] [] []).localPlayerId).map
      (fun q => (q.velocity.x, q.energy, q.boostCooldown)) = some (5, 80, 1) := by
  rw [(c7_amended_boost trOne boostEnv (sampleState [initialPlayer "A" ⟨0, 0⟩] [] [])
    (initialPlayer "A" ⟨0, 0⟩) (by decide) rfl rfl rfl rfl rfl rfl).1
    (by constructor <;> decide)]
  decide

/-! ### C10: passive shield/energy regeneration -/

/-- C10: on a tick with the local player present, every stored player (local
and remote, after the input phase) passes through the regeneration step: a
shield below max increases by exactly `10 * deltaTime` clamped to maxShield,
an energy below max by `20 * deltaTime` clamped to maxEnergy, and (for
`deltaTime ≥ 0`) neither ever decreases. -/
theorem c10_regen (tr : Trig) (env : Env) (st : GameState) (q : Player)
    (hl : findPlayer st.players st.localPlayerId = some q) (hdt : 0 ≤ env.dt) :
    List.Forall₂ (fun p r =>
        r.shield = (if p.shield < p.maxShield then min p.maxShield (p.shield + 10 * env.dt)
                    else p.shield) ∧
        r.energy = (if p.energy < p.maxEnergy then min p.maxEnergy (p.energy + 20 * env.dt)
                    else p.energy) ∧
        p.shield ≤ r.shield ∧ p.energy ≤ r.energy)
      (handlePlayerInput tr env st).players (updatePlayers tr env st).players := by
  simp only [updatePlayers, hl]
  rw [List.forall₂_map_right_iff, List.forall₂_same]
  intro p hp
  refine ⟨rfl, rfl, ?_, ?_⟩
  · show p.shield ≤ (if p.shield < p.maxShield then min p.maxShield (p.shield + 10 * env.dt)
      else p.shield)
    split_ifs with hc
    · exact le_min (le_of_lt hc) (by linarith)
    · exact le_refl _
  · show p.energy ≤ (if p.energy < p.maxEnergy then min p.maxEnergy (p.energy + 20 * env.dt)
      else p.energy)
    split_ifs with hc
    · exact le_min (le_of_lt hc) (by linarith)
    · exact le_refl _

unseal Rat.mul Rat.add Rat.sub Rat.inv in
/-- C10, witness at the initialized host state with an idle tick. -/
theorem c10_witness :
    List.Forall₂ (fun p r =>
        r.shield = (if p.shield < p.maxShield then min p.maxShield (p.shield + 10 * idleEnv.dt)
                    else p.shield) ∧
        r.energy = (if p.energy < p.maxEnergy then min p.maxEnergy (p.energy + 20 * idleEnv.dt)
                    else p.energy) ∧
        p.shield ≤ r.shield ∧ p.energy ≤ r.energy)
      (handlePlayerInput trOne idleEnv hostA).players
      (updatePlayers trOne idleEnv hostA).players :=
  c10_regen trOne idleEnv hostA (initialPlayer "A" ⟨100, 300⟩) (by decide)
    (by norm_num [idleEnv])

/-! ### C3: lethal hit and soft respawn -/

/-- What `handlePlayerDestroyed` does to the store: the victim entry is reset
to full resources with one more death and relocated to the next two oracle
draws scaled by the canvas; the killer entry (when present and distinct)
gains one kill and 100 score; no entry is removed. -/
theorem handlePlayerDestroyed_spec (st : GameState) (pid kid : String) (v k : Player)
    (hv : findPlayer st.players pid = some v)
    (hk : findPlayer st.players kid = some k) (hne : kid ≠ pid) :
    (findPlayer (handlePlayerDestroyed st pid kid).players pid =
      some { v with deaths := v.deaths + 1, health := v.maxHealth, shield := v.maxShield,
                    energy := v.maxEnergy,
                    position := ⟨st.rand st.ridx * st.canvasW,
                                 st.rand (st.ridx + 1) * st.canvasH⟩ }) ∧
    (findPlayer (handlePlayerDestroyed st pid kid).players kid =
      some { k with kills := k.kills + 1, score := k.score + 100 }) ∧
    (handlePlayerDestroyed st pid kid).players.length = st.players.length := by
  have hne' : pid ≠ kid := fun h => hne h.symm
  unfold handlePlayerDestroyed
  simp only [takeRand]
  refine ⟨?_, ?_, ?_⟩
  · rw [addExplosionParticles_players]
    rw [findPlayer_set_other hne
      (f := fun k => { k with kills := k.kills + 1, score := k.score + 100 })
      (fun q hq => rfl)]
    have h1 : findPlayer (setPlayer st.players pid respawnReset) pid =
        some (respawnReset v) := findPlayer_set_same rfl hv
    exact findPlayer_set_same (p := respawnReset v) rfl h1
  · rw [addExplosionParticles_players]
    have h1 : findPlayer (setPlayer st.players pid respawnReset) kid = some k := by
      rw [findPlayer_set_other hne' (f := respawnReset) (fun q hq => rfl)]
      exact hk
    have h2 : findPlayer (setPlayer (setPlayer st.players pid respawnReset) pid
        (fun q => { q with position := ⟨st.rand st.ridx * st.canvasW,
                                        st.rand (st.ridx + 1) * st.canvasH⟩ })) kid =
        some k := by
      rw [findPlayer_set_other hne'
        (f := fun q => { q with position := ⟨st.rand st.ridx * st.canvasW,
                                             st.rand (st.ridx + 1) * st.canvasH⟩ })
        (fun q hq => rfl)]
      exact h1
    exact findPlayer_set_same (p := k) rfl h2
  · rw [addExplosionParticles_players]
    simp only [setPlayer_length]

/-- C3: a projectile hit that drives health to 0 or below soft-respawns the
victim (health/shield/energy restored to max, deaths incremented, relocated
to the next oracle-drawn random position - the 24 hit-particle draws happen
first), awards the present shooter (`ownerId`) one kill and 100 score, and
removes no entry from the player store. -/
theorem c3_lethal_hit (st : GameState) (pid : String) (proj : Projectile) (p k : Player)
    (hfind : findPlayer st.players pid = some p)
    (hkill : findPlayer st.players proj.ownerId = some k)
    (hne : proj.ownerId ≠ pid)
    (hs : 0 ≤ p.shield) (hd : 0 ≤ proj.damage)
    (hdead : p.health - max (proj.damage - p.shield) 0 ≤ 0) :
    (findPlayer (handlePlayerHit st pid proj).players pid =
      some { p with deaths := p.deaths + 1, health := p.maxHealth, shield := p.maxShield,
                    energy := p.maxEnergy,
                    position := ⟨st.rand (st.ridx + 24) * st.canvasW,
                                 st.rand (st.ridx + 25) * st.canvasH⟩ }) ∧
    (findPlayer (handlePlayerHit st pid proj).players proj.ownerId =
      some { k with kills := k.kills + 1, score := k.score + 100 }) ∧
    (handlePlayerHit st pid proj).players.length = st.players.length := by
  have hpid : p.id = pid := findPlayer_id hfind
  simp only [handlePlayerHit, hfind]
  rw [hitResult_eq p proj.damage hs hd]
  rw [if_pos (show ({ p with
      shield := max (p.shield - proj.damage) 0,
      health := p.health - max (proj.damage - p.shield) 0 } : Player).health ≤ 0 from hdead)]
  have hv2 : findPlayer (addHitParticles
      { st with
        players := setPlayer st.players pid (fun _ => { p with
          shield := max (p.shield - proj.damage) 0,
          health := p.health - max (proj.damage - p.shield) 0 }) }
      p.position).players pid =
      some { p with
        shield := max (p.shield - proj.damage) 0,
        health := p.health - max (proj.damage - p.shield) 0 } := by
    rw [addHitParticles_players]
    exact findPlayer_set_same (p := p) rfl hfind
  have hk2 : findPlayer (addHitParticles
      { st with
        players := setPlayer st.players pid (fun _ => { p with
          shield := max (p.shield - proj.damage) 0,
          health := p.health - max (proj.damage - p.shield) 0 }) }
      p.position).players proj.ownerId = some k := by
    rw [addHitParticles_players]
    rw [findPlayer_set_other (fun h => hne h.symm)
      (f := fun _ => { p with
        shield := max (p.shield - proj.damage) 0,
        health := p.health - max (proj.damage - p.shield) 0 })
      (fun q hq => show p.id = q.id from hpid.trans hq.symm)]
    exact hkill
  obtain ⟨hc1, hc2, hc3⟩ := handlePlayerDestroyed_spec _ pid proj.ownerId _ k hv2 hk2 hne
  rw [addHitParticles_rand, addHitParticles_ridx, addHitParticles_canvasW,
    addHitParticles_canvasH] at hc1
  refine ⟨?_, hc2, ?_⟩
  · rw [hc1]
  · rw [hc3, addHitParticles_players, setPlayer_length]

unseal Rat.mul Rat.add Rat.sub Rat.inv in
/-- C3, witness: player A at shield 30, health 20 hit by a damage-50
projectile owned by B dies: A respawns at full resources at the oracle
position (400, 300) with one death, and B gains one kill and 100 score,
both entries still present. -/
theorem c3_witness :
    (findPlayer (handlePlayerHit (sampleState
        [{ initialPlayer "A" ⟨0, 0⟩ with shield := 30, health := 20 }, initialPlayer "B" ⟨500, 500⟩]
        [] []) "A" { enemyProjectile "p0" 5 with damage := 50 }).players "A").map
      (fun q => (q.health, q.shield, q.energy, q.deaths, q.position)) =
        some (100, 100, 100, 1, (⟨400, 300⟩ : Vec2)) ∧
    (findPlayer (handlePlayerHit (sampleState
        [{ initialPlayer "A" ⟨0, 0⟩ with shield := 30, health := 20 }, initialPlayer "B" ⟨500, 500⟩]
        [] []) "A" { enemyProjectile "p0" 5 with damage := 50 }).players
        ({ enemyProjectile "p0" 5 with damage := 50 } : Projectile).ownerId).map
      (fun q => (q.kills, q.score)) = some (1, 100) := by
  obtain ⟨h1, h2, _⟩ := c3_lethal_hit (sampleState
      [{ initialPlayer "A" ⟨0, 0⟩ with shield := 30, health := 20 }, initialPlayer "B" ⟨500, 500⟩]
      [] []) "A" { enemyProjectile "p0" 5 with damage := 50 }
      { initialPlayer "A" ⟨0, 0⟩ with shield := 30, health := 20 } (initialPlayer "B" ⟨500, 500⟩)
      (by decide) (by decide) (by decide) (by decide) (by decide) (by decide)
  constructor
  · rw [h1]
    decide
  · rw [h2]
    decide

/-! ### C1: resource bounds are a tick invariant -/

/-- Fold invariance, with membership of the traversed element available. -/
theorem foldl_inv_mem {σ α : Type} (I : σ → Prop) (l : List α) (f : σ → α → σ)
    (hf : ∀ s a, a ∈ l → I s → I (f s a)) :
    ∀ s : σ, I s → I (l.foldl f s) := by
  induction l with
  | nil => intro s h; exact h
  | cons a l ih =>
    intro s h
    rw [List.foldl_cons]
    exact ih (fun s b hb hs => hf s b (List.mem_cons_of_mem _ hb) hs)
      (f s a) (hf s a (List.mem_cons_self _ _) h)

/-- Elementwise facts transport through `setPlayer`. -/
theorem setPlayer_forall {P : Player → Prop} {ps : List Player} {tid : String}
    {f : Player → Player} (h : ∀ q ∈ ps, P (if q.id = tid then f q else q)) :
    ∀ q ∈ setPlayer ps tid f, P q := by
  intro q hq
  obtain ⟨r, hr, rfl⟩ := List.mem_map.mp hq
  exact h r hr

/-- `setPlayer` with an id-preserving update keeps the key list unchanged. -/
theorem setPlayer_idsEq {ps : List Player} {tid : String} {f : Player → Player}
    (hf : ∀ q ∈ ps, q.id = tid → (f q).id = q.id) :
    (setPlayer ps tid f).map (fun p => p.id) = ps.map (fun p => p.id) := by
  unfold setPlayer
  rw [List.map_map]
  apply List.map_congr_left
  intro a ha
  by_cases h : a.id = tid
  · simp [h, hf a ha h]
  · simp [h]

/-- In a store with distinct keys, any member carrying the looked-up key is
the found entry. -/
theorem mem_id_eq_of_nodup {ps : List Player} (hnd : (ps.map (fun p => p.id)).Nodup)
    {pid : String} {p q : Player} (hfind : findPlayer ps pid = some p)
    (hq : q ∈ ps) (hqid : q.id = pid) : q = p := by
  induction ps with
  | nil => simp [findPlayer] at hfind
  | cons r rs ih =>
    rw [List.map_cons, List.nodup_cons] at hnd
    by_cases hr : r.id = pid
    · simp only [findPlayer, if_pos hr] at hfind
      injection hfind with hfind
      subst hfind
      rcases List.mem_cons.mp hq with rfl | hq'
      · rfl
      · exact absurd (hr ▸ hqid ▸ List.mem_map.mpr ⟨q, hq', rfl⟩) hnd.1
    · simp only [findPlayer, if_neg hr] at hfind
      rcases List.mem_cons.mp hq with rfl | hq'
      · exact absurd hqid hr
      · exact ih hnd.2 hfind hq'

theorem pbounds_maxes {p : Player} (h : PBounds p) :
    0 ≤ p.maxHealth ∧ 0 ≤ p.maxShield ∧ 0 ≤ p.maxEnergy := by
  obtain ⟨h1, h2, h3, h4, h5, h6⟩ := h
  exact ⟨le_trans h1 h2, le_trans h3 h4, le_trans h5 h6⟩

/-- The per-player tick body keeps the resource bounds (`deltaTime ≥ 0`). -/
theorem pbounds_updatePlayerTick (env : Env) (w h : ℚ) (p : Player)
    (hdt : 0 ≤ env.dt) (hp : PBounds p) : PBounds (updatePlayerTick env w h p) := by
  obtain ⟨h1, h2, h3, h4, h5, h6⟩ := hp
  refine ⟨h1, h2, ?_, ?_, ?_, ?_⟩
  · show (0:ℚ) ≤ (if p.shield < p.maxShield then min p.maxShield (p.shield + 10 * env.dt)
      else p.shield)
    split_ifs with hc
    · exact le_min (by linarith) (by linarith)
    · exact h3
  · show (if p.shield < p.maxShield then min p.maxShield (p.shield + 10 * env.dt)
      else p.shield) ≤ p.maxShield
    split_ifs with hc
    · exact min_le_left _ _
    · exact h4
  · show (0:ℚ) ≤ (if p.energy < p.maxEnergy then min p.maxEnergy (p.energy + 20 * env.dt)
      else p.energy)
    split_ifs with hc
    · exact le_min (by linarith) (by linarith)
    · exact h5
  · show (if p.energy < p.maxEnergy then min p.maxEnergy (p.energy + 20 * env.dt)
      else p.energy) ≤ p.maxEnergy
    split_ifs with hc
    · exact min_le_left _ _
    · exact h6

/-- Shield-then-health damage keeps every bound except possibly `0 ≤ health`;
the maxima are untouched. -/
theorem hitResult_partial_bounds (p : Player) (d : ℚ) (hp : PBounds p) (hd : 0 ≤ d) :
    0 ≤ (hitResult p d).shield ∧ (hitResult p d).shield ≤ (hitResult p d).maxShield ∧
    (hitResult p d).health ≤ (hitResult p d).maxHealth ∧
    0 ≤ (hitResult p d).energy ∧ (hitResult p d).energy ≤ (hitResult p d).maxEnergy := by
  obtain ⟨h1, h2, h3, h4, h5, h6⟩ := hp
  rw [hitResult_eq p d h3 hd]
  refine ⟨le_max_right _ _, ?_, ?_, h5, h6⟩
  · show max (p.shield - d) 0 ≤ p.maxShield
    exact max_le (by linarith) (by linarith)
  · show p.health - max (d - p.shield) 0 ≤ p.maxHealth
    have := le_max_right (d - p.shield) (0:ℚ)
    linarith

/-- The per-power-up tick body never changes the simulation components other
than the oracle cursor, and keeps the power-up's value. -/
theorem powerUpTick_state (env : Env) (s : GameState) (pu : PowerUp) :
    (powerUpTick env s pu).2.players = s.players ∧
    (powerUpTick env s pu).2.projectiles = s.projectiles ∧
    (powerUpTick env s pu).2.powerUps = s.powerUps ∧
    (powerUpTick env s pu).1.value = pu.value := by
  unfold powerUpTick
  dsimp only [takeRand]
  split_ifs <;> exact ⟨rfl, rfl, rfl, rfl⟩

theorem addEngineParticles_projectiles (tr : Trig) (st : GameState) (p : Player) :
    (addEngineParticles tr st p).projectiles = st.projectiles := by
  unfold addEngineParticles
  apply foldl_proj_const (fun s => s.projectiles)
  intro st a
  rfl

theorem addEngineParticles_powerUps (tr : Trig) (st : GameState) (p : Player) :
    (addEngineParticles tr st p).powerUps = st.powerUps := by
  unfold addEngineParticles
  apply foldl_proj_const (fun s => s.powerUps)
  intro st a
  rfl

theorem addBoostParticles_projectiles (st : GameState) (pos : Vec2) :
    (addBoostParticles st pos).projectiles = st.projectiles := by
  unfold addBoostParticles
  apply foldl_proj_const (fun s => s.projectiles)
  intro st a
  rfl

theorem addBoostParticles_powerUps (st : GameState) (pos : Vec2) :
    (addBoostParticles st pos).powerUps = st.powerUps := by
  unfold addBoostParticles
  apply foldl_proj_const (fun s => s.powerUps)
  intro st a
  rfl

theorem addMuzzleFlashParticles_powerUps (tr : Trig) (st : GameState) (p : Player) :
    (addMuzzleFlashParticles tr st p).powerUps = st.powerUps := by
  unfold addMuzzleFlashParticles
  apply foldl_proj_const (fun s => s.powerUps)
  intro st a
  rfl

/-- `Inv` only depends on the players, projectiles and power-ups. -/
theorem inv_particles_eq {s t : GameState} (hpl : t.players = s.players)
    (hpr : t.projectiles = s.projectiles) (hpu : t.powerUps = s.powerUps)
    (h : Inv s) : Inv t := by
  unfold Inv at *
  rw [hpl, hpr, hpu]
  exact h

/-- `Inv` is preserved by an in-place local-player mutation whose update
keeps ids and keeps the bounds of every matching entry. -/
theorem inv_modifyLocal {st : GameState} {f : Player → Player} (h : Inv st)
    (hid : ∀ q ∈ st.players, q.id = st.localPlayerId → (f q).id = q.id)
    (hfb : ∀ q ∈ st.players, q.id = st.localPlayerId → PBounds (f q)) :
    Inv (modifyLocal st f) := by
  obtain ⟨hnd, hpb, hpr, hpu⟩ := h
  refine ⟨?_, ?_, hpr, hpu⟩
  · show ((setPlayer st.players st.localPlayerId f).map (fun p => p.id)).Nodup
    rw [setPlayer_idsEq hid]
    exact hnd
  · show ∀ q ∈ setPlayer st.players st.localPlayerId f, PBounds q
    apply setPlayer_forall
    intro q hq
    by_cases hc : q.id = st.localPlayerId
    · rw [if_pos hc]
      exact hfb q hq hc
    · rw [if_neg hc]
      exact hpb q hq

theorem inv_withLocal2 {st : GameState} {k : GameState → Player → GameState} (h : Inv st)
    (hk : ∀ p, findPlayer st.players st.localPlayerId = some p → Inv st → Inv (k st p)) :
    Inv (withLocal st k) := by
  unfold withLocal
  cases hf : findPlayer st.players st.localPlayerId with
  | none => exact h
  | some p => exact hk p hf h

/-- Firing preserves the invariant: the energy deduction happens only with
`energy ≥ 10`, and the spawned projectile has damage 25. -/
theorem inv_handleShooting (tr : Trig) (st : GameState) (h : Inv st) :
    Inv (handleShooting tr st) := by
  obtain ⟨hnd, hpb, hpr, hpu⟩ := h
  unfold handleShooting
  cases hf : findPlayer st.players st.localPlayerId with
  | none => exact ⟨hnd, hpb, hpr, hpu⟩
  | some p =>
    dsimp only
    split_ifs with hcond
    · exact ⟨hnd, hpb, hpr, hpu⟩
    · push_neg at hcond
      obtain ⟨hwc, hen⟩ := hcond
      refine ⟨?_, ?_, ?_, ?_⟩
      · rw [addMuzzleFlashParticles_players]
        show ((setPlayer st.players st.localPlayerId
          (fun q => { q with weaponCooldown := 1/5, energy := q.energy - 10 })).map
            (fun p => p.id)).Nodup
        rw [setPlayer_idsEq]
        · exact hnd
        · intro q hq hc
          rfl
      · rw [addMuzzleFlashParticles_players]
        show ∀ q ∈ setPlayer st.players st.localPlayerId
          (fun q => { q with weaponCooldown := 1/5, energy := q.energy - 10 }), PBounds q
        apply setPlayer_forall
        intro q hq
        by_cases hc : q.id = st.localPlayerId
        · rw [if_pos hc]
          obtain rfl : q = p := mem_id_eq_of_nodup hnd hf hq hc
          obtain ⟨b1, b2, b3, b4, b5, b6⟩ := hpb q hq
          exact ⟨b1, b2, b3, b4, by show (0:ℚ) ≤ q.energy - 10; linarith,
            by show q.energy - 10 ≤ q.maxEnergy; linarith⟩
        · rw [if_neg hc]
          exact hpb q hq
      · rw [addMuzzleFlashParticles_projectiles]
        show ∀ pr ∈ st.projectiles ++ [_], 0 ≤ pr.damage
        intro pr hmem
        rcases List.mem_append.mp hmem with hold | hnew
        · exact hpr pr hold
        · rw [List.mem_singleton.mp hnew]
          show (0:ℚ) ≤ 25
          norm_num
      · rw [addMuzzleFlashParticles_powerUps]
        exact hpu

/-- The whole input phase preserves the invariant. -/
theorem inv_handlePlayerInput (tr : Trig) (env : Env) (st : GameState) (h : Inv st) :
    Inv (handlePlayerInput tr env st) := by
  have hvel : ∀ (s : GameState) (f : Player → Player),
      Inv s → (∀ q, (f q).id = q.id) →
      (∀ q, q.health = (f q).health ∧ q.maxHealth = (f q).maxHealth ∧
            q.shield = (f q).shield ∧ q.maxShield = (f q).maxShield ∧
            q.energy = (f q).energy ∧ q.maxEnergy = (f q).maxEnergy) →
      Inv (modifyLocal s f) := by
    intro s f hs hid hkeep
    apply inv_modifyLocal hs (fun q _ _ => hid q)
    intro q hq _
    obtain ⟨b1, b2, b3, b4, b5, b6⟩ := hs.2.1 q hq
    obtain ⟨e1, e2, e3, e4, e5, e6⟩ := hkeep q
    exact ⟨e1 ▸ b1, by rw [← e1, ← e2]; exact b2, e3 ▸ b3, by rw [← e3, ← e4]; exact b4,
      e5 ▸ b5, by rw [← e5, ← e6]; exact b6⟩
  have hstepW : ∀ s : GameState, Inv s → Inv (if env.keyW = true then
      withLocal (modifyLocal s (fun p => { p with
        velocity := ⟨p.velocity.x + tr.cos p.rotation * 5 * env.dt,
                     p.velocity.y + tr.sin p.rotation * 5 * env.dt⟩ }))
        (fun st p => addEngineParticles tr st p)
      else s) := by
    intro s hs
    split_ifs with hc
    · apply inv_withLocal2
      · apply hvel
        · exact hs
        · intro q
          rfl
        · intro q
          exact ⟨rfl, rfl, rfl, rfl, rfl, rfl⟩
      · intro p hf hmid
        exact inv_particles_eq (addEngineParticles_players _ _ _)
          (addEngineParticles_projectiles _ _ _) (addEngineParticles_powerUps _ _ _) hmid
    · exact hs
  have hstepS : ∀ s : GameState, Inv s → Inv (if env.keyS = true then
      modifyLocal s (fun p => { p with
        velocity := ⟨p.velocity.x - tr.cos p.rotation * 3 * env.dt,
                     p.velocity.y - tr.sin p.rotation * 3 * env.dt⟩ })
      else s) := by
    intro s hs
    split_ifs with hc
    · apply hvel
      · exact hs
      · intro q
        rfl
      · intro q
        exact ⟨rfl, rfl, rfl, rfl, rfl, rfl⟩
    · exact hs
  have hstepA : ∀ s : GameState, Inv s → Inv (if env.keyA = true then
      modifyLocal s (fun p => { p with rotation := p.rotation - 3 * env.dt }) else s) := by
    intro s hs
    split_ifs with hc
    · apply hvel
      · exact hs
      · intro q
        rfl
      · intro q
        exact ⟨rfl, rfl, rfl, rfl, rfl, rfl⟩
    · exact hs
  have hstepD : ∀ s : GameState, Inv s → Inv (if env.keyD = true then
      modifyLocal s (fun p => { p with rotation := p.rotation + 3 * env.dt }) else s) := by
    intro s hs
    split_ifs with hc
    · apply hvel
      · exact hs
      · intro q
        rfl
      · intro q
        exact ⟨rfl, rfl, rfl, rfl, rfl, rfl⟩
    · exact hs
  have hboost : ∀ s : GameState, Inv s → Inv (withLocal s (fun st p =>
      if env.space = true ∧ p.energy > 20 ∧ p.boostCooldown ≤ 0 then
        addBoostParticles (modifyLocal st (fun q => { q with
          velocity := ⟨q.velocity.x + tr.cos q.rotation * 10 * env.dt,
                       q.velocity.y + tr.sin q.rotation * 10 * env.dt⟩,
          energy := q.energy - 20,
          boostCooldown := 1 })) p.position
      else st)) := by
    intro s hs
    apply inv_withLocal2 hs
    intro p hf hsInv
    split_ifs with hb
    · refine inv_particles_eq (addBoostParticles_players _ _)
        (addBoostParticles_projectiles _ _) (addBoostParticles_powerUps _ _) ?_
      apply inv_modifyLocal hsInv
      · intro q hq hc
        rfl
      · intro q hq hc
        obtain rfl : q = p := mem_id_eq_of_nodup hsInv.1 hf hq hc
        obtain ⟨b1, b2, b3, b4, b5, b6⟩ := hsInv.2.1 q hq
        have hb2 := hb.2.1
        exact ⟨b1, b2, b3, b4, by show (0:ℚ) ≤ q.energy - 20; linarith,
          by show q.energy - 20 ≤ q.maxEnergy; linarith⟩
    · exact hsInv
  have hfire : ∀ s : GameState, Inv s →
      Inv (if env.mousePressed = true then handleShooting tr s else s) := by
    intro s hs
    split_ifs with hc
    · exact inv_handleShooting tr s hs
    · exact hs
  have haim : ∀ s : GameState, Inv s → Inv (withLocal s (fun st p =>
      modifyLocal st (fun q => { q with
        rotation := tr.atan2 (env.mouseY - p.position.y) (env.mouseX - p.position.x) }))) := by
    intro s hs
    apply inv_withLocal2 hs
    intro p hf hsInv
    apply hvel
    · exact hsInv
    · intro q
      rfl
    · intro q
      exact ⟨rfl, rfl, rfl, rfl, rfl, rfl⟩
  unfold handlePlayerInput
  exact haim _ (hfire _ (hboost _ (hstepD _ (hstepA _ (hstepS _ (hstepW _ h))))))

theorem inv_updatePlayers (tr : Trig) (env : Env) (st : GameState) (hdt : 0 ≤ env.dt)
    (h : Inv st) : Inv (updatePlayers tr env st) := by
  unfold updatePlayers
  cases hf : findPlayer st.players st.localPlayerId with
  | none => exact h
  | some p =>
    obtain ⟨hnd, hpb, hpr, hpu⟩ := inv_handlePlayerInput tr env st h
    refine ⟨?_, ?_, hpr, hpu⟩
    · show ((((handlePlayerInput tr env st).players.map
        (updatePlayerTick env _ _)).map (fun p => p.id))).Nodup
      rw [List.map_map]
      have : ((handlePlayerInput tr env st).players.map
          ((fun p => p.id) ∘ updatePlayerTick env (handlePlayerInput tr env st).canvasW
            (handlePlayerInput tr env st).canvasH)) =
          (handlePlayerInput tr env st).players.map (fun p => p.id) :=
        List.map_congr_left (fun a _ => rfl)
      rw [this]
      exact hnd
    · intro q hq
      obtain ⟨r, hr, rfl⟩ := List.mem_map.mp hq
      exact pbounds_updatePlayerTick env _ _ r hdt (hpb r hr)

theorem inv_updateProjectiles (env : Env) (st : GameState) (h : Inv st) :
    Inv (updateProjectiles env st) := by
  obtain ⟨hnd, hpb, hpr, hpu⟩ := h
  refine ⟨hnd, hpb, ?_, hpu⟩
  intro pr hmem
  have hmem' := List.mem_filter.mp hmem
  obtain ⟨orig, horig, rfl⟩ := List.mem_map.mp hmem'.1
  exact hpr orig horig

theorem inv_updatePowerUps (env : Env) (st : GameState) (h : Inv st) :
    Inv (updatePowerUps env st) := by
  obtain ⟨hnd, hpb, hpr, hpu⟩ := h
  unfold updatePowerUps
  have key : ∀ (l : List PowerUp) (acc : List PowerUp) (s : GameState),
      (∀ pu ∈ l, 0 ≤ pu.value) → (∀ pu ∈ acc, 0 ≤ pu.value) →
      s.players = st.players → s.projectiles = st.projectiles →
      let r := l.foldl (fun (x : List PowerUp × GameState) pu =>
        let y := powerUpTick env x.2 pu
        (x.1 ++ [y.1], y.2)) (acc, s)
      (∀ pu ∈ r.1, 0 ≤ pu.value) ∧ r.2.players = st.players ∧
        r.2.projectiles = st.projectiles := by
    intro l
    induction l with
    | nil => intro acc s hl hacc hpl hpr2; exact ⟨hacc, hpl, hpr2⟩
    | cons a l ih =>
      intro acc s hl hacc hpl hpr2
      rw [List.foldl_cons]
      obtain ⟨s1, s2, s3, s4⟩ := powerUpTick_state env s a
      refine ih _ _ (fun pu hpu' => hl pu (List.mem_cons_of_mem _ hpu')) ?_
        (by rw [s1]; exact hpl) (by rw [s2]; exact hpr2)
      intro pu hmem
      rcases List.mem_append.mp hmem with hold | hnew
      · exact hacc pu hold
      · rw [List.mem_singleton.mp hnew, s4]
        exact hl a (List.mem_cons_self _ _)
  obtain ⟨k1, k2, k3⟩ := key st.powerUps [] st hpu (by intro pu hp; cases hp) rfl rfl
  exact ⟨by rw [k2]; exact hnd, by rw [k2]; exact hpb, by rw [k3]; exact hpr, k1⟩

theorem inv_updateAsteroids (env : Env) (st : GameState) (h : Inv st) :
    Inv (updateAsteroids env st) := h

theorem inv_updateParticles (env : Env) (st : GameState) (h : Inv st) :
    Inv (updateParticles env st) := h

/-- Soft respawn preserves the invariant as long as every entry either is
within bounds or carries the destroyed player's key together with nonnegative
maxima (its health may be 0 or below at this point). -/
theorem inv_handlePlayerDestroyed (st : GameState) (pid kid : String)
    (hnd : (st.players.map (fun p => p.id)).Nodup)
    (hmax : ∀ q ∈ st.players, q.id = pid →
      0 ≤ q.maxHealth ∧ 0 ≤ q.maxShield ∧ 0 ≤ q.maxEnergy)
    (hot : ∀ q ∈ st.players, q.id ≠ pid → PBounds q)
    (hpr : ∀ pr ∈ st.projectiles, 0 ≤ pr.damage)
    (hpu : ∀ pu ∈ st.powerUps, 0 ≤ pu.value) :
    Inv (handlePlayerDestroyed st pid kid) := by
  unfold handlePlayerDestroyed
  dsimp only [takeRand]
  refine ⟨?_, ?_, ?_, ?_⟩
  · rw [addExplosionParticles_players]
    dsimp only
    rw [setPlayer_idsEq, setPlayer_idsEq, setPlayer_idsEq]
    · exact hnd
    · intro q hq hc
      rfl
    · intro q hq hc
      rfl
    · intro q hq hc
      rfl
  · rw [addExplosionParticles_players]
    dsimp only
    apply setPlayer_forall
    intro q2 hq2
    have base : ∀ q ∈ setPlayer (setPlayer st.players pid respawnReset) pid
        (fun p => { p with position := ⟨st.rand st.ridx * st.canvasW,
                                        st.rand (st.ridx + 1) * st.canvasH⟩ }), PBounds q := by
      apply setPlayer_forall
      intro q1 hq1
      have base1 : ∀ q ∈ setPlayer st.players pid respawnReset, PBounds q := by
        apply setPlayer_forall
        intro q0 hq0
        by_cases hc : q0.id = pid
        · rw [if_pos hc]
          obtain ⟨m1, m2, m3⟩ := hmax q0 hq0 hc
          exact ⟨m1, le_refl _, m2, le_refl _, m3, le_refl _⟩
        · rw [if_neg hc]
          exact hot q0 hq0 hc
      by_cases hc : q1.id = pid
      · rw [if_pos hc]
        obtain ⟨b1, b2, b3, b4, b5, b6⟩ := base1 q1 hq1
        exact ⟨b1, b2, b3, b4, b5, b6⟩
      · rw [if_neg hc]
        exact base1 q1 hq1
    by_cases hc : q2.id = kid
    · rw [if_pos hc]
      obtain ⟨b1, b2, b3, b4, b5, b6⟩ := base q2 hq2
      exact ⟨b1, b2, b3, b4, b5, b6⟩
    · rw [if_neg hc]
      exact base q2 hq2
  · rw [addExplosionParticles_projectiles]
    exact hpr
  · rw [addExplosionParticles_powerUps]
    exact hpu

/-- `hitResult` never changes the identity or the maxima of the player. -/
theorem hitResult_fields (p : Player) (d : ℚ) :
    (hitResult p d).id = p.id ∧ (hitResult p d).maxHealth = p.maxHealth ∧
    (hitResult p d).maxShield = p.maxShield ∧ (hitResult p d).maxEnergy = p.maxEnergy := by
  unfold hitResult
  dsimp only
  split_ifs <;> exact ⟨rfl, rfl, rfl, rfl⟩

/-- Hit resolution preserves the invariant for any nonnegatively-damaging
projectile: the non-lethal branch keeps all bounds, the lethal branch goes
through the soft respawn. -/
theorem inv_handlePlayerHit (st : GameState) (pid : String) (proj : Projectile)
    (hdmg : 0 ≤ proj.damage) (h : Inv st) : Inv (handlePlayerHit st pid proj) := by
  obtain ⟨hnd, hpb, hpr, hpu⟩ := h
  unfold handlePlayerHit
  cases hf : findPlayer st.players pid with
  | none => exact ⟨hnd, hpb, hpr, hpu⟩
  | some player =>
    dsimp only
    have hmem := findPlayer_mem hf
    have hpid := findPlayer_id hf
    have hpbp := hpb player hmem
    obtain ⟨s1, s2, s3, s4, s5⟩ := hitResult_partial_bounds player proj.damage hpbp hdmg
    obtain ⟨f1, f2, f3, f4⟩ := hitResult_fields player proj.damage
    have hmaxes := pbounds_maxes hpbp
    have hnd2 : (((setPlayer st.players pid (fun _ => hitResult player proj.damage)).map
        (fun p => p.id))).Nodup := by
      rw [setPlayer_idsEq]
      · exact hnd
      · intro q hq hc
        show (hitResult player proj.damage).id = q.id
        rw [f1, hpid, hc]
    split_ifs with hdead
    · -- lethal: soft respawn
      apply inv_handlePlayerDestroyed
      · rw [addHitParticles_players]
        exact hnd2
      · rw [addHitParticles_players]
        apply setPlayer_forall
        intro q hq
        by_cases hc : q.id = pid
        · rw [if_pos hc]
          intro _
          refine ⟨?_, ?_, ?_⟩
          · show 0 ≤ (hitResult player proj.damage).maxHealth
            rw [f2]
            exact hmaxes.1
          · show 0 ≤ (hitResult player proj.damage).maxShield
            rw [f3]
            exact hmaxes.2.1
          · show 0 ≤ (hitResult player proj.damage).maxEnergy
            rw [f4]
            exact hmaxes.2.2
        · rw [if_neg hc]
          intro hcc
          exact absurd hcc hc
      · rw [addHitParticles_players]
        apply setPlayer_forall
        intro q hq
        by_cases hc : q.id = pid
        · rw [if_pos hc]
          intro hcc
          exact absurd (show (hitResult player proj.damage).id = pid by rw [f1, hpid]) hcc
        · rw [if_neg hc]
          intro _
          exact hpb q hq
      · rw [addHitParticles_projectiles]
        exact hpr
      · rw [addHitParticles_powerUps]
        exact hpu
    · -- non-lethal
      push_neg at hdead
      refine ⟨?_, ?_, ?_, ?_⟩
      · rw [addHitParticles_players]
        exact hnd2
      · rw [addHitParticles_players]
        apply setPlayer_forall
        intro q hq
        by_cases hc : q.id = pid
        · rw [if_pos hc]
          exact ⟨le_of_lt hdead, s3, s1, s2, s4, s5⟩
        · rw [if_neg hc]
          exact hpb q hq
      · rw [addHitParticles_projectiles]
        exact hpr
      · rw [addHitParticles_powerUps]
        exact hpu

/-- The state shape produced by a successful power-up collection keeps the
invariant, abstracting over the collected player and replacement entry. -/
theorem inv_collect_aux (st : GameState) (pid : String) (k : ℕ)
    (player p' : Player) (pu' : PowerUp) (pos : Vec2) (c : String)
    (hnd : (st.players.map (fun p => p.id)).Nodup)
    (hpb : ∀ q ∈ st.players, PBounds q)
    (hpr : ∀ x ∈ st.projectiles, 0 ≤ x.damage)
    (hpu : ∀ x ∈ st.powerUps, 0 ≤ x.value)
    (hpid : player.id = pid)
    (hid : p'.id = player.id)
    (hb : PBounds p')
    (hv : 0 ≤ pu'.value) :
    Inv (addCollectionParticles
      { st with players := setPlayer st.players pid (fun _ => p'),
                ridx := st.ridx + 1,
                powerUps := st.powerUps.set k pu' } pos c) := by
  refine ⟨?_, ?_, ?_, ?_⟩
  · rw [addCollectionParticles_players]
    dsimp only
    rw [setPlayer_idsEq]
    · exact hnd
    · intro q hq hc
      show p'.id = q.id
      rw [hid, hpid, hc]
  · rw [addCollectionParticles_players]
    dsimp only
    apply setPlayer_forall
    intro q hq
    by_cases hc : q.id = pid
    · rw [if_pos hc]
      exact hb
    · rw [if_neg hc]
      exact hpb q hq
  · rw [addCollectionParticles_projectiles]
    exact hpr
  · rw [addCollectionParticles_powerUps]
    dsimp only
    intro x hx
    rcases List.mem_or_eq_of_mem_set hx with hx' | rfl
    · exact hpu x hx'
    · exact hv

/-- Power-up collection preserves the invariant: the typed effects are
clamped at the respective maxima and the respawn bookkeeping touches no
bounded resource. -/
theorem inv_handlePowerUpCollection (st : GameState) (pid : String) (k : ℕ)
    (h : Inv st) : Inv (handlePowerUpCollection st pid k) := by
  obtain ⟨hnd, hpb, hpr, hpu⟩ := h
  unfold handlePowerUpCollection
  cases hk : st.powerUps[k]? with
  | none => exact ⟨hnd, hpb, hpr, hpu⟩
  | some pu =>
    cases hf : findPlayer st.players pid with
    | none => exact ⟨hnd, hpb, hpr, hpu⟩
    | some player =>
      dsimp only [takeRand]
      have hmem := findPlayer_mem hf
      have hpid := findPlayer_id hf
      have hpv : 0 ≤ pu.value := hpu pu (List.getElem?_mem hk)
      obtain ⟨b1, b2, b3, b4, b5, b6⟩ := hpb player hmem
      refine inv_collect_aux st pid k player _ _ _ _ hnd hpb hpr hpu hpid ?_ ?_ ?_
      · cases pu.kind <;> rfl
      · cases pu.kind with
        | health =>
          exact ⟨le_min (le_trans b1 b2) (add_nonneg b1 hpv), min_le_left _ _,
            b3, b4, b5, b6⟩
        | shield =>
          exact ⟨b1, b2, le_min (le_trans b3 b4) (add_nonneg b3 hpv),
            min_le_left _ _, b5, b6⟩
        | energy =>
          exact ⟨b1, b2, b3, b4, le_min (le_trans b5 b6) (add_nonneg b5 hpv),
            min_le_left _ _⟩
        | weapon => exact ⟨b1, b2, b3, b4, b5, b6⟩
      · exact hpv

/-- One step of the player-projectile pass preserves the invariant. -/
theorem inv_projLoopStep (pid : String) (st : GameState) (k : ℕ) (h : Inv st) :
    Inv (projLoopStep pid st k) := by
  obtain ⟨hnd, hpb, hpr, hpu⟩ := h
  unfold projLoopStep
  cases hk : st.projectiles[k]? with
  | none => exact ⟨hnd, hpb, hpr, hpu⟩
  | some proj =>
    cases hf : findPlayer st.players pid with
    | none => exact ⟨hnd, hpb, hpr, hpu⟩
    | some player =>
      dsimp only
      split_ifs with h1 h2
      · exact ⟨hnd, hpb, hpr, hpu⟩
      · have hd : 0 ≤ proj.damage := hpr proj (List.getElem?_mem hk)
        obtain ⟨hnd2, hpb2, hpr2, hpu2⟩ :=
          inv_handlePlayerHit st pid proj hd ⟨hnd, hpb, hpr, hpu⟩
        exact ⟨hnd2, hpb2, fun x hx => hpr2 x (List.mem_of_mem_eraseIdx hx), hpu2⟩
      · exact ⟨hnd, hpb, hpr, hpu⟩

/-- One player's full projectile pass preserves the invariant. -/
theorem inv_projLoop (pid : String) (st : GameState) (h : Inv st) :
    Inv (projLoop pid st) := by
  unfold projLoop
  apply foldl_inv_mem
  · intro s a _ hs
    exact inv_projLoopStep pid s a hs
  · exact h

/-- One step of the power-up pass preserves the invariant. -/
theorem inv_powerUpLoopStep (pid : String) (st : GameState) (k : ℕ) (h : Inv st) :
    Inv (powerUpLoopStep pid st k) := by
  unfold powerUpLoopStep
  cases hk : st.powerUps[k]? with
  | none => exact h
  | some pu =>
    cases hf : findPlayer st.players pid with
    | none => exact h
    | some player =>
      dsimp only
      split_ifs with h1 h2
      · exact inv_handlePowerUpCollection st pid k h
      · exact h
      · exact h

/-- One player's full power-up pass preserves the invariant. -/
theorem inv_powerUpLoop (pid : String) (st : GameState) (h : Inv st) :
    Inv (powerUpLoop pid st) := by
  unfold powerUpLoop
  apply foldl_inv_mem
  · intro s a _ hs
    exact inv_powerUpLoopStep pid s a hs
  · exact h

/-- The whole players pass of `checkCollisions` preserves the invariant. -/
theorem inv_playerCollisions (st : GameState) (h : Inv st) :
    Inv (playerCollisions st) := by
  unfold playerCollisions
  apply foldl_inv_mem
  · intro s a _ hs
    exact inv_powerUpLoop a (projLoop a s) (inv_projLoop a s hs)
  · exact h

/-- The asteroid inner loop of the projectile-asteroid pass preserves the
invariant: it only spawns particles and erases projectiles. -/
theorem inv_astInner (proj : Projectile) (k : ℕ) (st : GameState) (h : Inv st) :
    Inv (astInner proj k st) := by
  unfold astInner
  apply foldl_inv_mem
  · intro s a _ hs
    obtain ⟨hnd, hpb, hpr, hpu⟩ := hs
    dsimp only
    split_ifs with h1
    · refine ⟨?_, ?_, ?_, ?_⟩
      · dsimp only
        rw [addExplosionParticles_players]
        exact hnd
      · dsimp only
        rw [addExplosionParticles_players]
        exact hpb
      · dsimp only
        rw [addExplosionParticles_projectiles]
        intro x hx
        exact hpr x (List.mem_of_mem_eraseIdx hx)
      · dsimp only
        rw [addExplosionParticles_powerUps]
        exact hpu
    · exact ⟨hnd, hpb, hpr, hpu⟩
  · exact h

/-- One step of the projectile-asteroid pass preserves the invariant. -/
theorem inv_projAstStep (st : GameState) (k : ℕ) (h : Inv st) :
    Inv (projAstStep st k) := by
  unfold projAstStep
  cases hk : st.projectiles[k]? with
  | none => exact h
  | some proj => exact inv_astInner proj k st h

/-- The projectile-asteroid pass preserves the invariant. -/
theorem inv_projAstLoop (st : GameState) (h : Inv st) : Inv (projAstLoop st) := by
  unfold projAstLoop
  apply foldl_inv_mem
  · intro s a _ hs
    exact inv_projAstStep s a hs
  · exact h

/-- The whole collision phase preserves the invariant. -/
theorem inv_checkCollisions (st : GameState) (h : Inv st) :
    Inv (checkCollisions st) :=
  inv_projAstLoop _ (inv_playerCollisions st h)

/-- A full `update` tick preserves the invariant (nonnegative `deltaTime`). -/
theorem inv_update (tr : Trig) (env : Env) (st : GameState) (hdt : 0 ≤ env.dt)
    (h : Inv st) : Inv (update tr env st) := by
  unfold update
  dsimp only
  apply inv_checkCollisions
  apply inv_updateParticles
  apply inv_updateAsteroids
  apply inv_updatePowerUps
  apply inv_updateProjectiles
  apply inv_updatePlayers tr env _ hdt
  exact h

/-- Any sequence of ticks with nonnegative `deltaTime`s preserves the
invariant. -/
theorem inv_applyTicks (tr : Trig) (envs : List Env) (st : GameState)
    (hdt : ∀ e ∈ envs, 0 ≤ e.dt) (h : Inv st) : Inv (applyTicks tr envs st) := by
  unfold applyTicks
  apply foldl_inv_mem
  · intro s a ha hs
    exact inv_update tr a s (hdt a ha) hs
  · exact h

theorem generateAsteroids_players (s : GameState) :
    (generateAsteroids s).players = s.players := by
  unfold generateAsteroids
  apply foldl_proj_const (fun s => s.players)
  intro st a
  dsimp only [takeRand]

theorem generateAsteroids_projectiles (s : GameState) :
    (generateAsteroids s).projectiles = s.projectiles := by
  unfold generateAsteroids
  apply foldl_proj_const (fun s => s.projectiles)
  intro st a
  dsimp only [takeRand]

theorem generateAsteroids_powerUps (s : GameState) :
    (generateAsteroids s).powerUps = s.powerUps := by
  unfold generateAsteroids
  apply foldl_proj_const (fun s => s.powerUps)
  intro st a
  dsimp only [takeRand]

theorem generateAsteroids_rand (s : GameState) :
    (generateAsteroids s).rand = s.rand := by
  unfold generateAsteroids
  apply foldl_proj_const (fun s => s.rand)
  intro st a
  dsimp only [takeRand]

/-- Every power-up generated from a nonnegative oracle has nonnegative value
(`25 + Math.random() * 25`). -/
theorem generatePowerUps_values (s : GameState) (hr : ∀ n, 0 ≤ s.rand n)
    (h : ∀ pu ∈ s.powerUps, 0 ≤ pu.value) :
    ∀ pu ∈ (generatePowerUps s).powerUps, 0 ≤ pu.value := by
  unfold generatePowerUps
  refine (foldl_inv_mem
    (fun t : GameState => (∀ pu ∈ t.powerUps, 0 ≤ pu.value) ∧ ∀ n, 0 ≤ t.rand n)
    (List.range 8) _ ?_ s ⟨h, hr⟩).1
  intro t a _ ht
  dsimp only [takeRand]
  constructor
  · intro pu hmem
    rcases List.mem_append.mp hmem with hold | hnew
    · exact ht.1 pu hold
    · rw [List.mem_singleton.mp hnew]
      show 0 ≤ 25 + t.rand (t.ridx + 1 + 1 + 1) * 25
      have hx := ht.2 (t.ridx + 1 + 1 + 1)
      linarith
  · exact ht.2

/-- The constructor-produced state satisfies the invariant for any
nonnegative `Math.random` oracle. -/
theorem inv_mkEngine (w h : ℚ) (rand : ℕ → ℚ) (hr : ∀ n, 0 ≤ rand n) :
    Inv (mkEngine w h rand) := by
  unfold mkEngine
  refine ⟨?_, ?_, ?_, ?_⟩
  · rw [generatePowerUps_players, generateAsteroids_players]
    simp
  · rw [generatePowerUps_players, generateAsteroids_players]
    intro p hp
    simp at hp
  · rw [generatePowerUps_projectiles, generateAsteroids_projectiles]
    intro x hx
    simp at hx
  · apply generatePowerUps_values
    · rw [generateAsteroids_rand]
      exact hr
    · rw [generateAsteroids_powerUps]
      intro x hx
      simp at hx

/-- The freshly created player satisfies the resource bounds. -/
theorem pbounds_initialPlayer (pid : String) (pos : Vec2) :
    PBounds (initialPlayer pid pos) := by
  unfold PBounds initialPlayer
  norm_num

/-- `createPlayer` preserves the invariant: the fresh entry is full-resource
and `Map.set` keeps keys distinct. -/
theorem inv_createPlayer (st : GameState) (pid : String) (pos : Vec2) (h : Inv st) :
    Inv (createPlayer st pid pos) := by
  obtain ⟨hnd, hpb, hpr, hpu⟩ := h
  unfold createPlayer
  split_ifs with h1
  · refine ⟨?_, ?_, hpr, hpu⟩
    · dsimp only
      rw [setPlayer_idsEq]
      · exact hnd
      · intro q hq hc
        show pid = q.id
        rw [hc]
    · dsimp only
      apply setPlayer_forall
      intro q hq
      by_cases hc : q.id = pid
      · rw [if_pos hc]
        exact pbounds_initialPlayer pid pos
      · rw [if_neg hc]
        exact hpb q hq
  · have h2 : ∀ p ∈ st.players, p.id ≠ pid := by
      intro p hp he
      exact h1 (List.any_eq_true.mpr ⟨p, hp, by rw [he]; exact beq_self_eq_true pid⟩)
    refine ⟨?_, ?_, hpr, hpu⟩
    · dsimp only
      rw [List.map_append]
      refine List.Nodup.append hnd (by simp) ?_
      intro a ha hb
      obtain ⟨p, hp, rfl⟩ := List.mem_map.mp ha
      simp only [List.map_cons, List.map_nil, List.mem_singleton] at hb
      exact h2 p hp hb
    · dsimp only
      intro q hq
      rcases List.mem_append.mp hq with hq' | hq'
      · exact hpb q hq'
      · rw [List.mem_singleton.mp hq']
        exact pbounds_initialPlayer pid pos

/-- Host initialization preserves the invariant. -/
theorem inv_initializeAsHost (st : GameState) (pid : String) (h : Inv st) :
    Inv (initializeAsHost st pid) :=
  inv_createPlayer { st with isHost := true, localPlayerId := pid } pid ⟨100, 300⟩ h

/-- Client initialization preserves the invariant. -/
theorem inv_initializeAsClient (st : GameState) (pid : String) (h : Inv st) :
    Inv (initializeAsClient st pid) :=
  inv_createPlayer { st with isHost := false, localPlayerId := pid } pid ⟨700, 300⟩ h

/-- C1: starting from the constructor state followed by host (or client)
initialization of any player, and after any number of `update` ticks with
arbitrary per-tick inputs (any key/mouse environment with nonnegative
`deltaTime`) and any nonnegative `Math.random` oracle, every player in the
store satisfies `0 ≤ health ≤ maxHealth`, `0 ≤ shield ≤ maxShield` and
`0 ≤ energy ≤ maxEnergy` at the end of each tick. -/
theorem c1_player_resource_bounds (tr : Trig) (w h : ℚ) (rand : ℕ → ℚ)
    (hrand : ∀ n, 0 ≤ rand n) (pid : String) (envs : List Env)
    (hdt : ∀ e ∈ envs, 0 ≤ e.dt) :
    (∀ p ∈ (applyTicks tr envs (initializeAsHost (mkEngine w h rand) pid)).players,
      0 ≤ p.health ∧ p.health ≤ p.maxHealth ∧ 0 ≤ p.shield ∧ p.shield ≤ p.maxShield ∧
      0 ≤ p.energy ∧ p.energy ≤ p.maxEnergy) ∧
    (∀ p ∈ (applyTicks tr envs (initializeAsClient (mkEngine w h rand) pid)).players,
      0 ≤ p.health ∧ p.health ≤ p.maxHealth ∧ 0 ≤ p.shield ∧ p.shield ≤ p.maxShield ∧
      0 ≤ p.energy ∧ p.energy ≤ p.maxEnergy) := by
  constructor
  · intro p hp
    exact (inv_applyTicks tr envs _ hdt
      (inv_initializeAsHost _ pid (inv_mkEngine w h rand hrand))).2.1 p hp
  · intro p hp
    exact (inv_applyTicks tr envs _ hdt
      (inv_initializeAsClient _ pid (inv_mkEngine w h rand hrand))).2.1 p hp

/-- C1, witness: the bounds hold after one idle tick from the initialized
host state on a 800x600 canvas with the constant-half oracle. -/
theorem c1_witness :
    (∀ n, 0 ≤ halfRand n) ∧ (∀ e ∈ [idleEnv], 0 ≤ e.dt) ∧
    ∀ p ∈ (applyTicks trOne [idleEnv] (initializeAsHost (mkEngine 800 600 halfRand) "A")).players,
      0 ≤ p.health ∧ p.health ≤ p.maxHealth ∧ 0 ≤ p.shield ∧ p.shield ≤ p.maxShield ∧
      0 ≤ p.energy ∧ p.energy ≤ p.maxEnergy := by
  refine ⟨?_, ?_, ?_⟩
  · intro n
    norm_num [halfRand]
  · intro e he
    rw [List.mem_singleton.mp he]
    norm_num [idleEnv]
  · intro p hp
    exact (c1_player_resource_bounds trOne 800 600 halfRand
      (fun n => by norm_num [halfRand]) "A" [idleEnv]
      (fun e he => by rw [List.mem_singleton.mp he]; norm_num [idleEnv])).1 p hp

end BluetoothGame
